import Mathlib

/-!
# Verification of the schema-reconciling timetable engine

Shallow embedding of the timetable read/merge/conflict-detection engine of
`windows/temp_timetable.py` and `windows/timetable_display_component.py`.

The relational store is modelled as lists of rows (one structure per table);
SQL queries become filters/joins over those lists; Python dictionaries become
association lists with update-in-place insertion; Python list assignment with
possibly negative indices is modelled explicitly.  Python `int(...)` parsing is
modelled for optionally signed decimal strings (digit grouping with
underscores is not modelled; no claim depends on it).
-/

/-! ## Basic utilities: Python-like dictionaries, sets, splitting, parsing -/

/-- Python dict lookup on an association list (first binding wins; by
construction of `dictInsert` keys are unique). -/
def dictGet {β : Type} (k : String) : List (String × β) → Option β
  | [] => none
  | (k', v) :: rest => if k' = k then some v else dictGet k rest

/-- Python dict assignment `d[k] = v`: update the existing binding in place,
else append a new one (preserving Python insertion order). -/
def dictInsert {β : Type} (k : String) (v : β) : List (String × β) → List (String × β)
  | [] => [(k, v)]
  | (k', v') :: rest =>
      if k' = k then (k, v) :: rest else (k', v') :: dictInsert k v rest

/-- Python dict lookup with an `Int` key (used for the periods map). -/
def idictGet {β : Type} (k : Int) : List (Int × β) → Option β
  | [] => none
  | (k', v) :: rest => if k' = k then some v else idictGet k rest

/-- Python dict assignment with an `Int` key. -/
def idictInsert {β : Type} (k : Int) (v : β) : List (Int × β) → List (Int × β)
  | [] => [(k, v)]
  | (k', v') :: rest =>
      if k' = k then (k, v) :: rest else (k', v') :: idictInsert k v rest

/-- Python `set.add`: append if not already present (membership is what
matters; we keep first-insertion order). -/
def setInsert {α : Type} [DecidableEq α] (a : α) (s : List α) : List α :=
  if a ∈ s then s else s ++ [a]

/-- Stable insertion into a sorted list: `a` goes before the first element it
compares `le` to, so elements equal under `le` keep their original order when
used through `sortBy`. -/
def insertLe {α : Type} (le : α → α → Bool) (a : α) : List α → List α
  | [] => [a]
  | b :: bs => if le a b then a :: b :: bs else b :: insertLe le a bs

/-- Stable sort (models SQL `ORDER BY` over materialized rows). -/
def sortBy {α : Type} (le : α → α → Bool) (l : List α) : List α :=
  l.foldr (insertLe le) []

/-- Byte-wise lexicographic `≤` on strings (SQLite BINARY collation). -/
def charListLe : List Char → List Char → Bool
  | [], _ => true
  | _ :: _, [] => false
  | a :: as, b :: bs =>
      if a.toNat < b.toNat then true
      else if b.toNat < a.toNat then false
      else charListLe as bs

/-- String `≤` via `charListLe`. -/
def strLe (s t : String) : Bool := charListLe s.data t.data

/-- Python `str.split(sep)` for a single-character separator, over char
lists. -/
def pySplitChars (sep : Char) : List Char → List (List Char)
  | [] => [[]]
  | c :: cs =>
      let rest := pySplitChars sep cs
      if c = sep then [] :: rest
      else
        match rest with
        | [] => [[c]]
        | r :: rs => (c :: r) :: rs

/-- Python `str.split(sep)` (single-character separator).  Like Python,
`"".split(sep) = [""]` and separators at the ends yield empty fields. -/
def pySplit (sep : Char) (s : String) : List String :=
  (pySplitChars sep s.data).map String.mk

/-- Python `str.split(sep, 1)`: split at the first occurrence only; `none`
when the separator does not occur. -/
def pySplit1 (sep : Char) (s : String) : Option (String × String) :=
  match pySplitChars sep s.data with
  | [] => none
  | [_] => none
  | x :: xs => some (String.mk x, String.intercalate (String.mk [sep]) (xs.map String.mk))

/-- Python `x in s` for a character and a string. -/
def strContainsChar (c : Char) (s : String) : Bool := s.data.contains c

/-- Digits of `n` in reverse, structural on the fuel. -/
def natDigitsRevAux : Nat → Nat → List Char
  | 0, _ => []
  | _ + 1, 0 => []
  | fuel + 1, n =>
      Char.ofNat (48 + n % 10) :: natDigitsRevAux fuel (n / 10)

/-- Decimal representation of a natural number. -/
def natRepr (n : Nat) : String :=
  if n = 0 then "0" else String.mk (natDigitsRevAux (n + 1) n).reverse

/-- Decimal representation of an integer (used for Python f-string
interpolation of a day id, e.g. `f"Day{day_id}"`). -/
def intRepr (i : Int) : String :=
  if i < 0 then "-" ++ natRepr (-i).toNat else natRepr i.toNat

/-- Value of a list of decimal digit characters. -/
def digitsVal (cs : List Char) : Nat :=
  cs.foldl (fun acc c => acc * 10 + (c.toNat - 48)) 0

/-- Python whitespace stripping (ASCII space/tab/newline/CR suffice here). -/
def isPySpace (c : Char) : Bool :=
  c = ' ' ∨ c = '\t' ∨ c = '\n' ∨ c = '\r'

/-- Python `int(s)`: optional surrounding whitespace, optional sign, at least
one decimal digit; `none` models a raised `ValueError`. -/
def pyParseInt (s : String) : Option Int :=
  let t := (s.data.dropWhile isPySpace).reverse.dropWhile isPySpace |>.reverse
  let (sign, digits) : Int × List Char :=
    match t with
    | '-' :: rest => (-1, rest)
    | '+' :: rest => (1, rest)
    | _ => (1, t)
  if digits ≠ [] ∧ digits.all Char.isDigit then
    some (sign * (digitsVal digits : Int))
  else none

/-! ## Data model: the relational store

One structure per table of `timetable.db`, with the source's column names.
Columns declared `NOT NULL` in the source's `CREATE TABLE` statements are
plain `String`/`Int`; nullable ones are `Option`. -/

/-- A row of the current-schema table `SCHEDULE` (all columns `NOT NULL`). -/
structure ScheduleRow where
  ID : String
  DAYID : Int
  PERIODID : Int
  SUBCODE : String
  SECTION : String
  FINI : String
  deriving DecidableEq, Repr

/-- A row of the legacy-schema table `SCHEDULED_LESSONS` (`SUBJECT_CODE` and
`TEACHER_ID` are nullable). -/
structure LessonRow where
  SCHEDULE_ID : Int
  CLASS_NAME : String
  DAY_OF_WEEK : String
  PERIOD_NUMBER : Int
  SUBJECT_CODE : Option String
  TEACHER_ID : Option String
  deriving DecidableEq, Repr

/-- A row of `SUBJECTS` (`SUBCODE`/`SUBNAME` are `NOT NULL`; the `COLOR` and
`SUBTYPE` columns live in the fuller schema of `subjects.py` and are
nullable). -/
structure SubjectRow where
  SUBCODE : String
  SUBNAME : String
  SUBTYPE : Option String
  COLOR : Option String
  deriving DecidableEq, Repr

/-- A row of `FACULTY` (`INI` is nullable). -/
structure FacultyRow where
  FID : String
  NAME : String
  INI : Option String
  deriving DecidableEq, Repr

/-- A row of the auxiliary `LESSONS` table (lesson-type lookup keyed by
class and subject code). -/
structure LessonTypeRow where
  CLASS_NAME : String
  SUBJECT_CODE : String
  LESSON_TYPE : String
  deriving DecidableEq, Repr

/-- The whole store. -/
structure Db where
  schedule : List ScheduleRow
  scheduledLessons : List LessonRow
  subjects : List SubjectRow
  faculty : List FacultyRow
  lessons : List LessonTypeRow
  deriving DecidableEq, Repr

/-! ## Settings Resolver (`TimetableApp._load_timetable_structure`)

The settings store is the `TIMETABLE_SETTINGS` table; `none` for the whole
store models a failed database connection, `hasTable = false` models the
`sqlite_master` probe finding no such table. -/

/-- The `TIMETABLE_SETTINGS` table: presence flag plus
(setting_name, setting_value) rows. -/
structure SettingsStore where
  hasTable : Bool
  rows : List (String × String)
  deriving DecidableEq, Repr

/-- `SELECT setting_value FROM TIMETABLE_SETTINGS WHERE setting_name = ?`
followed by `fetchone()`: the first matching row's value. -/
def settingLookup (st : SettingsStore) (name : String) : Option String :=
  (st.rows.find? (fun r => r.1 = name)).map (fun r => r.2)

/-- `DEFAULT_DAYS` from `temp_timetable.py`. -/
def DEFAULT_DAYS : List String := ["Mo", "Tu", "We", "Th", "Fr", "Sa"]

/-- `DEFAULT_PERIODS_INFO` from `temp_timetable.py` (insertion-ordered
dict). -/
def DEFAULT_PERIODS_INFO : List (Int × String) :=
  [(1, "8:00 - 8:45"), (2, "9:00 - 9:45"), (3, "10:00 - 10:45"),
   (4, "11:00 - 11:45"), (5, "12:00 - 12:45"), (6, "13:00 - 13:45")]

/-- The `PERIODS_CONFIG` parse loop: for each comma-separated field holding a
colon, `period_num:time_range` with `int(period_num)`; a `ValueError` aborts
the whole parse (`none`); fields without a colon are skipped. -/
def parsePeriodsConfig (v : String) : Option (List (Int × String)) :=
  (pySplit ',' v).foldl
    (fun acc part =>
      match acc with
      | none => none
      | some d =>
          match pySplit1 ':' part with
          | none => some d
          | some (numStr, timeRange) =>
              match pyParseInt numStr with
              | none => none
              | some n => some (idictInsert n timeRange d))
    (some [])

/-- The `DAYS_ENABLED` step: filter the default day list down to the listed
codes (preserving default order); absent or empty value keeps the default. -/
def resolveDays (st : SettingsStore) : List String :=
  match settingLookup st "DAYS_ENABLED" with
  | some v =>
      if v ≠ "" then DEFAULT_DAYS.filter (fun day => day ∈ pySplit ',' v)
      else DEFAULT_DAYS
  | none => DEFAULT_DAYS

/-- The `PERIODS_CONFIG` step: replace the default period map by the parsed
pairs when the parse succeeds with at least one pair. -/
def resolvePeriodsConfigStep (st : SettingsStore) : List (Int × String) :=
  match settingLookup st "PERIODS_CONFIG" with
  | some v =>
      if v ≠ "" then
        match parsePeriodsConfig v with
        | some d => if d ≠ [] then d else DEFAULT_PERIODS_INFO
        | none => DEFAULT_PERIODS_INFO
      else DEFAULT_PERIODS_INFO
  | none => DEFAULT_PERIODS_INFO

/-- The `NUM_PERIODS` step, run after the `PERIODS_CONFIG` step: when the
value is present, non-empty and parses as an integer, replace whatever the
previous step produced by the default map truncated to `k ≤ n`. -/
def resolvePeriods (st : SettingsStore) : List (Int × String) :=
  match settingLookup st "NUM_PERIODS" with
  | some v =>
      if v ≠ "" then
        match pyParseInt v with
        | some n => DEFAULT_PERIODS_INFO.filter (fun kv => kv.1 ≤ n)
        | none => resolvePeriodsConfigStep st
      else resolvePeriodsConfigStep st
  | none => resolvePeriodsConfigStep st

/-- `TimetableApp._load_timetable_structure`: resolve the day list and the
period map from the settings store, with layered fallback to the static
defaults.  `store = none` models `self.conn` being `None`. -/
def load_timetable_structure (store : Option SettingsStore) :
    List String × List (Int × String) :=
  match store with
  | none => (DEFAULT_DAYS, DEFAULT_PERIODS_INFO)
  | some st =>
      if st.hasTable = false then (DEFAULT_DAYS, DEFAULT_PERIODS_INFO)
      else (resolveDays st, resolvePeriods st)

/-! ## Schema-Merging Timetable Loader (`load_timetable_data`)

`load_timetable_data(class_names, days, periods_per_day)` in
`timetable_display_component.py`: initialize an empty grid, fill it from the
`SCHEDULE` table (current schema), then from `SCHEDULED_LESSONS` (legacy
schema) writing only where the cell's subject string is still falsy.  The
current-schema pass runs under its own `try`: an `IndexError` from a Python
list assignment with a too-negative period id aborts the remainder of that
pass (and only it). -/

/-- A lesson-display record, the value stored in one grid cell (the Python
dict built at lines 1062-1069 / 1128-1135 of the source). -/
structure CellData where
  subject : String
  teacher : Option String
  full_name : Option String
  subcode : Option String
  color : Option String
  lesson_type : String
  deriving DecidableEq, Repr

/-- The loader's output: class name → day name → fixed-length period list;
`none` models the initial empty dict `{}` in a period slot. -/
abbrev Grid : Type := List (String × List (String × List (Option CellData)))

/-- The current-schema day map of `load_timetable_data` (line 1012):
`{0: "Monday", ..., 6: "Sunday"}` with default `f"Day{day_id}"`. -/
def currentDayName (i : Int) : String :=
  if i = 0 then "Monday" else if i = 1 then "Tuesday" else if i = 2 then "Wednesday"
  else if i = 3 then "Thursday" else if i = 4 then "Friday" else if i = 5 then "Saturday"
  else if i = 6 then "Sunday" else "Day" ++ intRepr i

/-- The legacy-schema day map of `load_timetable_data` (line 1075):
day codes to full names, defaulting to the code itself. -/
def legacyDayName (c : String) : String :=
  if c = "Mo" then "Monday" else if c = "Tu" then "Tuesday" else if c = "We" then "Wednesday"
  else if c = "Th" then "Thursday" else if c = "Fr" then "Friday" else if c = "Sa" then "Saturday"
  else if c = "Su" then "Sunday" else c

/-- Python `s[:2]`. -/
def pyTake2 (s : String) : String := String.mk (s.data.take 2)

/-- `load_subject_colors()`: the `SUBCODE → COLOR` dict over `SUBJECTS` rows
where both values are truthy (the `COLOR` column is assumed present; its
absence only empties this dict). -/
def load_subject_colors (db : Db) : List (String × String) :=
  db.subjects.foldl
    (fun d s =>
      match s.COLOR with
      | some c => if s.SUBCODE ≠ "" ∧ c ≠ "" then dictInsert s.SUBCODE c d else d
      | none => d)
    []

/-- The per-class `lesson_types` dict: `SELECT SUBJECT_CODE, LESSON_TYPE FROM
LESSONS WHERE CLASS_NAME = ?` folded into a dict. -/
def lessonTypesFor (db : Db) (cls : String) : List (String × String) :=
  (db.lessons.filter (fun r => r.CLASS_NAME = cls)).foldl
    (fun d r => dictInsert r.SUBJECT_CODE r.LESSON_TYPE d) []

/-- A row of the current-schema loader query
`SELECT sch.DAYID, sch.PERIODID, s.SUBNAME, sch.FINI, s.SUBCODE, s.COLOR`
(the `s.*` columns are null when the `LEFT JOIN SUBJECTS` finds no match). -/
structure CurrentEntry where
  DAYID : Int
  PERIODID : Int
  SUBNAME : Option String
  FINI : String
  SUBCODE : Option String
  COLOR : Option String
  deriving DecidableEq, Repr

/-- `LEFT JOIN SUBJECTS s ON sch.SUBCODE = s.SUBCODE`: one row per matching
subject, or a single null-padded row. -/
def currentJoin (subjects : List SubjectRow) (r : ScheduleRow) : List CurrentEntry :=
  match subjects.filter (fun s => s.SUBCODE = r.SUBCODE) with
  | [] => [⟨r.DAYID, r.PERIODID, none, r.FINI, none, none⟩]
  | ms => ms.map (fun s => ⟨r.DAYID, r.PERIODID, some s.SUBNAME, r.FINI, some s.SUBCODE, s.COLOR⟩)

/-- `ORDER BY sch.DAYID, sch.PERIODID` as a Bool relation. -/
def currentRowLe (a b : ScheduleRow) : Bool :=
  decide (a.DAYID < b.DAYID) ||
    (decide (a.DAYID = b.DAYID) && decide (a.PERIODID ≤ b.PERIODID))

/-- The current-schema query of `load_timetable_data` for one class:
filter by section, order, left-join subject metadata. -/
def currentEntries (db : Db) (cls : String) : List CurrentEntry :=
  (sortBy currentRowLe (db.schedule.filter (fun r => r.SECTION = cls))).flatMap
    (currentJoin db.subjects)

/-- A row of the legacy-schema loader query `SELECT sl.DAY_OF_WEEK,
sl.PERIOD_NUMBER, s.SUBNAME, f.INI, s.SUBCODE, s.COLOR`. -/
structure LegacyEntry where
  DAY_OF_WEEK : String
  PERIOD_NUMBER : Int
  SUBNAME : Option String
  INI : Option String
  SUBCODE : Option String
  COLOR : Option String
  deriving DecidableEq, Repr

/-- The two `LEFT JOIN`s of the legacy query (`SUBJECTS` on `SUBJECT_CODE`,
`FACULTY` on `TEACHER_ID`); a SQL `NULL` key matches nothing. -/
def legacyJoin (subjects : List SubjectRow) (faculty : List FacultyRow)
    (r : LessonRow) : List LegacyEntry :=
  let subjMatches : List (Option SubjectRow) :=
    match r.SUBJECT_CODE with
    | none => [none]
    | some sc =>
        match subjects.filter (fun s => s.SUBCODE = sc) with
        | [] => [none]
        | ms => ms.map some
  let facMatches : List (Option FacultyRow) :=
    match r.TEACHER_ID with
    | none => [none]
    | some t =>
        match faculty.filter (fun f => f.FID = t) with
        | [] => [none]
        | ms => ms.map some
  subjMatches.flatMap (fun sm =>
    facMatches.map (fun fm =>
      ⟨r.DAY_OF_WEEK, r.PERIOD_NUMBER, sm.map (fun s => s.SUBNAME),
        fm.bind (fun f => f.INI), sm.map (fun s => s.SUBCODE),
        sm.bind (fun s => s.COLOR)⟩))

/-- `ORDER BY sl.DAY_OF_WEEK, sl.PERIOD_NUMBER` as a Bool relation
(`DAY_OF_WEEK` is text, so byte-wise string order). -/
def legacyRowLe (a b : LessonRow) : Bool :=
  (strLe a.DAY_OF_WEEK b.DAY_OF_WEEK && !strLe b.DAY_OF_WEEK a.DAY_OF_WEEK) ||
    (decide (a.DAY_OF_WEEK = b.DAY_OF_WEEK) && decide (a.PERIOD_NUMBER ≤ b.PERIOD_NUMBER))

/-- The legacy-schema query of `load_timetable_data` for one class. -/
def legacyEntries (db : Db) (cls : String) : List LegacyEntry :=
  (sortBy legacyRowLe (db.scheduledLessons.filter (fun r => r.CLASS_NAME = cls))).flatMap
    (legacyJoin db.subjects db.faculty)

/-- `subject_code[:2] if subject_code else (subject_name[:2] if subject_name
else "")` — Python truthiness: `None` and `""` are falsy. -/
def subjectCodeDisplay (subject_code subject_name : Option String) : String :=
  match subject_code with
  | some sc => if sc ≠ "" then pyTake2 sc else
      match subject_name with
      | some sn => if sn ≠ "" then pyTake2 sn else ""
      | none => ""
  | none =>
      match subject_name with
      | some sn => if sn ≠ "" then pyTake2 sn else ""
      | none => ""

/-- The color resolution of both loader passes: the joined `s.COLOR` if
truthy, else the subject-colors dict keyed by the joined subject code. -/
def resolveColor (subject_colors : List (String × String))
    (joinedColor : Option String) (subject_code : Option String) : Option String :=
  match joinedColor with
  | some c =>
      if c ≠ "" then some c
      else match subject_code with
           | some sc => dictGet sc subject_colors
           | none => none
  | none =>
      match subject_code with
      | some sc => dictGet sc subject_colors
      | none => none

/-- `lesson_types.get(subject_code, "Single")` (a `None` key is absent from a
string-keyed dict). -/
def resolveLessonType (lesson_types : List (String × String))
    (subject_code : Option String) : String :=
  match subject_code with
  | some sc => (dictGet sc lesson_types).getD "Single"
  | none => "Single"

/-- Python list assignment `l[i] = a`: a negative index wraps by the length;
`none` models a raised `IndexError`. -/
def pySetList {α : Type} (l : List α) (i : Int) (a : α) : Option (List α) :=
  let n : Int := l.length
  let j : Int := if i < 0 then i + n else i
  if 0 ≤ j ∧ j < n then some (l.set j.toNat a) else none

/-- Read a cell: `timetable_data[cls][day][i]` (`none` when a key or index is
absent; unreachable on the paths the source takes). -/
def gridCell (g : Grid) (cls day : String) (i : Nat) : Option (Option CellData) :=
  (dictGet cls g).bind (fun dd => (dictGet day dd).bind (fun l => l.get? i))

/-- Write a cell at a Python (possibly negative) index:
`timetable_data[cls][day][i] = c`; `none` models an `IndexError`. -/
def gridSetCell (g : Grid) (cls day : String) (i : Int) (c : Option CellData) :
    Option Grid :=
  (dictGet cls g).bind fun dd =>
    (dictGet day dd).bind fun l =>
      (pySetList l i c).map fun l' => dictInsert cls (dictInsert day l' dd) g

/-- Grid initialization (lines 1003-1006): every cell of every listed class
and day starts as the empty dict. -/
def initGrid (class_names days : List String) (ppd : Nat) : Grid :=
  class_names.foldl
    (fun g cls =>
      dictInsert cls
        (days.foldl (fun dd d => dictInsert d (List.replicate ppd none) dd) []) g)
    []

/-- The cell value built by the current-schema pass from one query row. -/
def currentCell (subject_colors lesson_types : List (String × String))
    (e : CurrentEntry) : CellData :=
  { subject := subjectCodeDisplay e.SUBCODE e.SUBNAME
    teacher := some e.FINI
    full_name := e.SUBNAME
    subcode := e.SUBCODE
    color := resolveColor subject_colors e.COLOR e.SUBCODE
    lesson_type := resolveLessonType lesson_types e.SUBCODE }

/-- One class of the current-schema pass; the `Bool` is `false` once the pass
has aborted on an `IndexError` (the source's `except` at line 1070). -/
def runCurrentEntries (days : List String) (ppd : Nat) (cls : String)
    (subject_colors lesson_types : List (String × String)) :
    List CurrentEntry → Grid → Grid × Bool
  | [], g => (g, true)
  | e :: rest, g =>
      let day_name := currentDayName e.DAYID
      if day_name ∉ days ∨ (ppd : Int) ≤ e.PERIODID then
        runCurrentEntries days ppd cls subject_colors lesson_types rest g
      else
        match gridSetCell g cls day_name e.PERIODID
            (some (currentCell subject_colors lesson_types e)) with
        | some g' => runCurrentEntries days ppd cls subject_colors lesson_types rest g'
        | none => (g, false)

/-- The current-schema pass over all classes (aborts the remaining classes on
the first `IndexError`). -/
def runCurrentPass (db : Db) (days : List String) (ppd : Nat)
    (subject_colors : List (String × String)) :
    List String → Grid → Grid × Bool
  | [], g => (g, true)
  | cls :: rest, g =>
      match runCurrentEntries days ppd cls subject_colors (lessonTypesFor db cls)
          (currentEntries db cls) g with
      | (g', true) => runCurrentPass db days ppd subject_colors rest g'
      | (g', false) => (g', false)

/-- The cell value built by the legacy-schema pass from one query row. -/
def legacyCell (subject_colors lesson_types : List (String × String))
    (e : LegacyEntry) : CellData :=
  { subject := subjectCodeDisplay e.SUBCODE e.SUBNAME
    teacher := e.INI
    full_name := e.SUBNAME
    subcode := e.SUBCODE
    color := resolveColor subject_colors e.COLOR e.SUBCODE
    lesson_type := resolveLessonType lesson_types e.SUBCODE }

/-- `not timetable_data[...][...].get("subject")`: the guard of the legacy
pass — true for the initial empty dict and for an empty subject string. -/
def cellSubjectFalsy : Option CellData → Bool
  | none => true
  | some c => c.subject = ""

/-- One class of the legacy-schema pass (lines 1101-1135): bounds-checked
writes into cells whose subject is still falsy. -/
def runLegacyEntries (days : List String) (ppd : Nat) (cls : String)
    (subject_colors lesson_types : List (String × String)) :
    List LegacyEntry → Grid → Grid
  | [], g => g
  | e :: rest, g =>
      let day_name := legacyDayName e.DAY_OF_WEEK
      let period_idx := e.PERIOD_NUMBER - 1
      if day_name ∉ days ∨ (ppd : Int) ≤ period_idx ∨ period_idx < 0 then
        runLegacyEntries days ppd cls subject_colors lesson_types rest g
      else
        if cellSubjectFalsy ((gridCell g cls day_name period_idx.toNat).getD none) then
          match gridSetCell g cls day_name period_idx
              (some (legacyCell subject_colors lesson_types e)) with
          | some g' => runLegacyEntries days ppd cls subject_colors lesson_types rest g'
          | none => runLegacyEntries days ppd cls subject_colors lesson_types rest g
        else
          runLegacyEntries days ppd cls subject_colors lesson_types rest g

/-- The legacy-schema pass over all classes (runs unconditionally after the
current pass; the source's comment notwithstanding, there is no guard). -/
def runLegacyPass (db : Db) (days : List String) (ppd : Nat)
    (subject_colors : List (String × String)) :
    List String → Grid → Grid
  | [], g => g
  | cls :: rest, g =>
      runLegacyPass db days ppd subject_colors rest
        (runLegacyEntries days ppd cls subject_colors (lessonTypesFor db cls)
          (legacyEntries db cls) g)

/-- The grid after initialization and the current-schema pass only. -/
def afterCurrentPass (db : Db) (class_names days : List String) (ppd : Nat) : Grid :=
  (runCurrentPass db days ppd (load_subject_colors db) class_names
    (initGrid class_names days ppd)).1

/-- `load_timetable_data(class_names, days, periods_per_day)`: both passes. -/
def load_timetable_data (db : Db) (class_names days : List String) (ppd : Nat) : Grid :=
  runLegacyPass db days ppd (load_subject_colors db) class_names
    (afterCurrentPass db class_names days ppd)

/-! ## Conflict Detector

Two implementations exist in the source: the whole-store
`check_faculty_conflicts()` of `timetable_display_component.py` (which scans
only the `SCHEDULE` table) and the section-scoped
`TimetableApp._check_faculty_conflicts(section)` of `temp_timetable.py`
(which scans both schemas and concatenates). -/

/-- Keep the first occurrence of each element (seen-accumulator form). -/
def distinctAux : List String → List String → List String
  | [], _ => []
  | a :: rest, seen =>
      if a ∈ seen then distinctAux rest seen else a :: distinctAux rest (a :: seen)

/-- `SELECT DISTINCT` over a projected column. -/
def distinctList (l : List String) : List String := distinctAux l []

/-- `load_classes_from_db()`: distinct sections of `SCHEDULE` (sorted), else
distinct class names of `SCHEDULED_LESSONS` (sorted), else the default five
(the fallback `CLASS` table is not part of the modelled store: with it
absent the third query raises and the default list is returned). -/
def load_classes_from_db (db : Db) : List String :=
  let classes := sortBy strLe (distinctList (db.schedule.map (fun r => r.SECTION)))
  let classes :=
    if classes = [] then
      sortBy strLe (distinctList (db.scheduledLessons.map (fun r => r.CLASS_NAME)))
    else classes
  if classes = [] then ["Class 1", "Class 2", "Class 3", "Class 4", "Class 5"]
  else classes

/-- A conflict tuple of the whole-store detector:
`(DAYID, PERIODID, FINI, SECTION, SECTION)`. -/
abbrev Conflict := Int × Int × String × String × String

/-- `ORDER BY s1.DAYID, s1.PERIODID, s1.FINI` as a Bool relation. -/
def conflictLe (a b : Conflict) : Bool :=
  decide (a.1 < b.1) ||
    (decide (a.1 = b.1) &&
      (decide (a.2.1 < b.2.1) ||
        (decide (a.2.1 = b.2.1) && strLe a.2.2.1 b.2.2.1)))

/-- The current-schema self-join of the whole-store detector: every ordered
pair of `SCHEDULE` rows sharing `(DAYID, PERIODID, FINI)` with differing
sections. -/
def scheduleConflictPairs (rows : List ScheduleRow) : List Conflict :=
  sortBy conflictLe
    (rows.flatMap (fun r1 =>
      rows.filterMap (fun r2 =>
        if r1.DAYID = r2.DAYID ∧ r1.PERIODID = r2.PERIODID ∧ r1.FINI = r2.FINI ∧
            r1.SECTION ≠ r2.SECTION then
          some (r1.DAYID, r1.PERIODID, r1.FINI, r1.SECTION, r2.SECTION)
        else none)))

/-- `check_faculty_conflicts()` of `timetable_display_component.py`: the
conflict list (current schema only) and the set of involved grid cells,
resolved through `load_classes_from_db()`. -/
def check_faculty_conflicts (db : Db) : List Conflict × List (Nat × Int × Int) :=
  let conflicts := scheduleConflictPairs db.schedule
  let conflict_cells :=
    conflicts.foldl
      (fun acc c =>
        (load_classes_from_db db).enum.foldl
          (fun acc2 ic =>
            if ic.2 = c.2.2.2.1 ∨ ic.2 = c.2.2.2.2 then
              setInsert (ic.1, c.1, c.2.1) acc2
            else acc2)
          acc)
      []
  (conflicts, conflict_cells)

/-- `DAY_MAP` of `temp_timetable.py` (`{0: "Mo", ..., 5: "Sa"}`, default
`f"Day{day_id}"`). -/
def ttDayCode (i : Int) : String :=
  if i = 0 then "Mo" else if i = 1 then "Tu" else if i = 2 then "We"
  else if i = 3 then "Th" else if i = 4 then "Fr" else if i = 5 then "Sa"
  else "Day" ++ intRepr i

/-- A conflict tuple of the section-scoped detector:
`(day_code, period, faculty_initials, class, class)` — `INI` is nullable in
the legacy half. -/
abbrev TTConflict := String × Int × Option String × String × String

/-- `ORDER BY s1.DAYID, s1.PERIODID` as a Bool relation over raw pairs. -/
def ttCurrentLe (a b : Conflict) : Bool :=
  decide (a.1 < b.1) || (decide (a.1 = b.1) && decide (a.2.1 ≤ b.2.1))

/-- The current-schema half of `TimetableApp._check_faculty_conflicts`:
self-join of `SCHEDULE` filtered to `s1.SECTION = sec`, ordered, then day id
mapped through `DAY_MAP` and the 0-based period displayed 1-based. -/
def ttCurrentConflicts (db : Db) (sec : String) : List TTConflict :=
  (sortBy ttCurrentLe
      (db.schedule.flatMap (fun r1 =>
        db.schedule.filterMap (fun r2 =>
          if r1.DAYID = r2.DAYID ∧ r1.PERIODID = r2.PERIODID ∧ r1.FINI = r2.FINI ∧
              r1.SECTION ≠ r2.SECTION ∧ r1.SECTION = sec then
            some (r1.DAYID, r1.PERIODID, r1.FINI, r1.SECTION, r2.SECTION)
          else none)))).map
    (fun c => (ttDayCode c.1, c.2.1 + 1, some c.2.2.1, c.2.2.2.1, c.2.2.2.2))

/-- `ORDER BY sl1.DAY_OF_WEEK, sl1.PERIOD_NUMBER` over legacy conflict
tuples. -/
def ttLegacyLe (a b : TTConflict) : Bool :=
  (strLe a.1 b.1 && !strLe b.1 a.1) ||
    (decide (a.1 = b.1) && decide (a.2.1 ≤ b.2.1))

/-- The legacy-schema self-join with the faculty indirection
(`JOIN FACULTY f ON sl1.TEACHER_ID = f.FID`), optionally filtered to
`sl1.CLASS_NAME = sec` (`none` filters nothing; SQL `NULL` teacher ids match
nothing). -/
def legacyConflictPairs (db : Db) (sec : Option String) : List TTConflict :=
  sortBy ttLegacyLe
    (db.scheduledLessons.flatMap (fun sl1 =>
      if sec = none ∨ sec = some sl1.CLASS_NAME then
        db.scheduledLessons.flatMap (fun sl2 =>
          match sl1.TEACHER_ID, sl2.TEACHER_ID with
          | some t1, some t2 =>
              if sl1.DAY_OF_WEEK = sl2.DAY_OF_WEEK ∧
                  sl1.PERIOD_NUMBER = sl2.PERIOD_NUMBER ∧ t1 = t2 ∧
                  sl1.CLASS_NAME ≠ sl2.CLASS_NAME then
                (db.faculty.filter (fun f => f.FID = t1)).map
                  (fun f => (sl1.DAY_OF_WEEK, sl1.PERIOD_NUMBER, f.INI,
                    sl1.CLASS_NAME, sl2.CLASS_NAME))
              else []
          | _, _ => [])
      else []))

/-- `TimetableApp._check_faculty_conflicts(section)`: the current-schema scan
(converted to day codes / 1-based periods) followed by the legacy-schema
scan, concatenated. -/
def tt_check_faculty_conflicts (db : Db) (sec : String) : List TTConflict :=
  ttCurrentConflicts db sec ++ legacyConflictPairs db (some sec)

/-- Modelled from the spec: the legacy-schema half that the claimed
*whole-store* detector would need — "every pair of legacy-schema rows sharing
(day, period, teacher-resolved-faculty) with differing sections".  The
source's whole-store `check_faculty_conflicts()` contains no such scan; this
definition exists to compare the claim against the code. -/
def detect_conflicts_legacy_spec (db : Db) : List TTConflict :=
  legacyConflictPairs db none

/-! ## The `temp_timetable.py` display path (`_load_and_display_timetable`)

Lines 374-377: the sentinel handling of the current-schema display text. -/

/-- Python rendering of a possibly-`None` string in an f-string. -/
def pyFormatOpt : Option String → String
  | some s => s
  | none => "None"

/-- `sub_name if sub_name else subcode if subcode != "NULL" else "Free"`
(`sub_name` is the joined `s.SUBNAME`, `subcode` the joined `s.SUBCODE`). -/
def tt_subject_display (sub_name subcode : Option String) : Option String :=
  match sub_name with
  | some s =>
      if s ≠ "" then some s
      else if subcode ≠ some "NULL" then subcode else some "Free"
  | none => if subcode ≠ some "NULL" then subcode else some "Free"

/-- `fini if fini != "NULL" else "-"` (`fini` is `sch.FINI`, `NOT NULL`). -/
def tt_faculty_display (fini : String) : String :=
  if fini ≠ "NULL" then fini else "-"

/-- `lesson_text = f"{subject_display}\n{faculty_display}"`. -/
def tt_lesson_text (sub_name subcode : Option String) (fini : String) : String :=
  pyFormatOpt (tt_subject_display sub_name subcode) ++ "\n" ++ tt_faculty_display fini

/-! ## Cell Edit / Swap Engine (`update_db_with_cell_swap`)

Each schema's half reads the two cells' rows first (`fetchone`), then — only
when both rows exist — rewrites every row of each cell with the other cell's
values.  The generic `swapHalf` captures that shape for both schemas. -/

/-- `UPDATE ... SET <values> WHERE <m>`: rewrite every matching row. -/
def tableUpd {α ν : Type} (m : α → Bool) (v : ν) (setv : α → ν → α)
    (rows : List α) : List α :=
  rows.map (fun r => if m r then setv r v else r)

/-- One schema's half of the swap: select both cells' rows, and if both
exist, write cell 2's values over cell 1's rows and vice versa (in the
source's order: cell 1's rows are updated first). -/
def swapHalf {α ν : Type} (setv : α → ν → α) (getv : α → ν)
    (m1 m2 : α → Bool) (rows : List α) : List α :=
  match rows.find? m1, rows.find? m2 with
  | some s1, some s2 =>
      tableUpd m2 (getv s1) setv (tableUpd m1 (getv s2) setv rows)
  | _, _ => rows

/-- `WHERE SECTION=? AND DAYID=? AND PERIODID=?`. -/
def schedMatch (sec : String) (d p : Int) (r : ScheduleRow) : Bool :=
  decide (r.SECTION = sec) && decide (r.DAYID = d) && decide (r.PERIODID = p)

/-- `SET SUBCODE=?, FINI=?`. -/
def schedSet (r : ScheduleRow) (v : String × String) : ScheduleRow :=
  { r with SUBCODE := v.1, FINI := v.2 }

/-- The swapped value pair of a `SCHEDULE` row. -/
def schedGet (r : ScheduleRow) : String × String := (r.SUBCODE, r.FINI)

/-- `WHERE CLASS_NAME=? AND DAY_OF_WEEK=? AND PERIOD_NUMBER=?`. -/
def lessonMatch (cls code : String) (pn : Int) (r : LessonRow) : Bool :=
  decide (r.CLASS_NAME = cls) && decide (r.DAY_OF_WEEK = code) &&
    decide (r.PERIOD_NUMBER = pn)

/-- `SET SUBJECT_CODE=?, TEACHER_ID=?`. -/
def lessonSet (r : LessonRow) (v : Option String × Option String) : LessonRow :=
  { r with SUBJECT_CODE := v.1, TEACHER_ID := v.2 }

/-- The swapped value pair of a `SCHEDULED_LESSONS` row. -/
def lessonGet (r : LessonRow) : Option String × Option String :=
  (r.SUBJECT_CODE, r.TEACHER_ID)

/-- `self.class_names[idx] if idx < len(...) else None`, with the source's
falsiness test `if not class1_name` also rejecting the empty string. -/
def resolveClassName (class_names : List String) (i : Nat) : Option String :=
  match class_names.get? i with
  | some n => if n = "" then none else some n
  | none => none

/-- `day_codes = ["Mo", "Tu", "We", "Th", "Fr", "Sa", "Su"]`. -/
def day_codes : List String := ["Mo", "Tu", "We", "Th", "Fr", "Sa", "Su"]

/-- `TimetableDisplayComponent.update_db_with_cell_swap(cell1, cell2)`: the
storage effect of a swap.  A cell key is `(class_idx, day_idx, period_idx)`.
Each schema's half proceeds only when both of its rows exist; the legacy half
additionally needs both day indices to resolve to day codes.  (The post-swap
conflict re-check reads but does not write the store.) -/
def update_db_with_cell_swap (db : Db) (class_names : List String)
    (cell1 cell2 : Nat × Nat × Nat) : Db :=
  match resolveClassName class_names cell1.1, resolveClassName class_names cell2.1 with
  | some class1_name, some class2_name =>
      let schedule' :=
        swapHalf schedSet schedGet
          (schedMatch class1_name cell1.2.1 cell1.2.2)
          (schedMatch class2_name cell2.2.1 cell2.2.2) db.schedule
      let lessons' :=
        match day_codes.get? cell1.2.1, day_codes.get? cell2.2.1 with
        | some day1_code, some day2_code =>
            swapHalf lessonSet lessonGet
              (lessonMatch class1_name day1_code ((cell1.2.2 : Int) + 1))
              (lessonMatch class2_name day2_code ((cell2.2.2 : Int) + 1))
              db.scheduledLessons
        | _, _ => db.scheduledLessons
      { db with schedule := schedule', scheduledLessons := lessons' }
  | _, _ => db

/-! ## Grid Projection Helper (the span loop of `load_data`, lines 580-687)

Scanning one `(class, day)` row left to right: a non-empty cell not yet
consumed starts a span whose column span follows its `lesson_type`, degrading
to 1 at the right edge; consumed follow-on cells are added to
`processed_cells`. -/

/-- The span-length rule of the source (used to state the span theorem):
`Double`/`Triple` consume the following 1/2 periods when they fit, else the
span degrades to length 1. -/
def spanRule (n p : Nat) (t : String) : Nat :=
  if t = "Double" ∧ p < n - 1 then 2
  else if t = "Triple" ∧ p < n - 2 then 3
  else 1

/-- The span loop over one row.  `n` is `len(self.periods)`, `p` the current
period index, `processed` the row's slice of `processed_cells`. -/
def load_data_spans_go (n : Nat) : Nat → List (Option CellData) → List Nat →
    List (Nat × Nat)
  | _, [], _ => []
  | p, none :: rest, processed => load_data_spans_go n (p + 1) rest processed
  | p, some cell :: rest, processed =>
      if p < n ∧ p ∉ processed then
        (p, spanRule n p cell.lesson_type) ::
          load_data_spans_go n (p + 1) rest
            ((if spanRule n p cell.lesson_type = 2 then [p + 1]
              else if spanRule n p cell.lesson_type = 3 then [p + 1, p + 2]
              else []) ++ p :: processed)
      else load_data_spans_go n (p + 1) rest processed

/-- The spans `(start_period, colspan)` emitted for one `(class, day)` row. -/
def load_data_spans (n : Nat) (row : List (Option CellData)) : List (Nat × Nat) :=
  load_data_spans_go n 0 row []

/-! ## Concrete stores and grids used by specific theorems -/

/-- A store whose only faculty double-booking lives in the legacy schema:
`T1` (initials `JD`) teaches both `CSE` and `ECE` on `Mo`, period 1; the
`SCHEDULE` table is empty. -/
def dbLegacyOnlyConflict : Db :=
  { schedule := []
    scheduledLessons := [⟨1, "CSE", "Mo", 1, some "Ma", some "T1"⟩,
                         ⟨2, "ECE", "Mo", 1, some "Ph", some "T1"⟩]
    subjects := []
    faculty := [⟨"T1", "Jane Doe", some "JD"⟩]
    lessons := [] }

/-- A store whose cell `(CSE, Monday, 0)` is populated in both schemas: the
current schema with subject code `X` (which has no `SUBJECTS` row, so its
display abbreviation resolves to the empty string) and the legacy schema with
subject `EN`. -/
def dbBothSchemas : Db :=
  { schedule := [⟨"i1", 0, 0, "X", "CSE", "JD"⟩]
    scheduledLessons := [⟨1, "CSE", "Mo", 1, some "EN", some "T1"⟩]
    subjects := [⟨"EN", "English", none, none⟩]
    faculty := [⟨"T1", "Terry", some "TR"⟩]
    lessons := [] }

/-- Like `dbBothSchemas` but the current-schema subject `Ma` has a
`SUBJECTS` row, so its display abbreviation is non-empty. -/
def dbBothSchemasNamed : Db :=
  { schedule := [⟨"i1", 0, 0, "Ma", "CSE", "JD"⟩]
    scheduledLessons := [⟨1, "CSE", "Mo", 1, some "EN", some "T1"⟩]
    subjects := [⟨"Ma", "Maths", none, none⟩, ⟨"EN", "English", none, none⟩]
    faculty := [⟨"T1", "Terry", some "TR"⟩]
    lessons := [] }

/-- A store with a current-schema row at `PERIODID = -1`. -/
def dbNegativePeriod : Db :=
  { schedule := [⟨"i1", 0, -1, "Ma", "CSE", "JD"⟩]
    scheduledLessons := []
    subjects := [⟨"Ma", "Maths", none, none⟩]
    faculty := []
    lessons := [] }

/-- A store with a current-schema row at `PERIODID = -5` (below `-ppd` for
`ppd = 2`) followed in scan order by a valid row at period 0. -/
def dbVeryNegativePeriod : Db :=
  { schedule := [⟨"i1", 0, -5, "Ma", "CSE", "JD"⟩, ⟨"i2", 0, 0, "Ph", "CSE", "XY"⟩]
    scheduledLessons := []
    subjects := [⟨"Ma", "Maths", none, none⟩, ⟨"Ph", "Physics", none, none⟩]
    faculty := []
    lessons := [] }

/-- A store with a legacy-schema row at `PERIOD_NUMBER = 0` (0-based index
`-1`, out of range for the legacy pass). -/
def dbLegacyZeroPeriod : Db :=
  { schedule := []
    scheduledLessons := [⟨1, "CSE", "Mo", 0, some "EN", none⟩]
    subjects := [⟨"EN", "English", none, none⟩]
    faculty := []
    lessons := [] }

/-- A store whose only current-schema row carries the sentinel string
`"NULL"` in both `SUBCODE` and `FINI`. -/
def dbNullSentinel : Db :=
  { schedule := [⟨"i1", 0, 0, "NULL", "CSE", "NULL"⟩]
    scheduledLessons := []
    subjects := []
    faculty := []
    lessons := [] }

/-- A store in which the cell `(CSE, day 0, period 0)` has two `SCHEDULE`
rows with different values (the key is not unique), plus one row for
`(ECE, day 0, period 1)`. -/
def dbDuplicateRows : Db :=
  { schedule := [⟨"a", 0, 0, "X1", "CSE", "F1"⟩, ⟨"a2", 0, 0, "Y1", "CSE", "F2"⟩,
                 ⟨"b", 0, 1, "Z1", "ECE", "F3"⟩]
    scheduledLessons := []
    subjects := []
    faculty := []
    lessons := [] }

/-- A store with unique cell keys in both schemas, for the swap round-trip
witness. -/
def dbUniqueKeys : Db :=
  { schedule := [⟨"a", 0, 0, "Ma", "CSE", "JD"⟩, ⟨"b", 0, 1, "Ph", "ECE", "XY"⟩]
    scheduledLessons := [⟨1, "CSE", "Mo", 1, some "Ma", some "T1"⟩,
                         ⟨2, "ECE", "Mo", 2, some "Ph", some "T2"⟩]
    subjects := []
    faculty := []
    lessons := [] }

/-- A store with a current-schema row for one swapped cell only (the other
cell has no row in either schema). -/
def dbOneSidedCell : Db :=
  { schedule := [⟨"a", 0, 0, "Ma", "CSE", "JD"⟩]
    scheduledLessons := [⟨1, "CSE", "Mo", 1, some "Ma", some "T1"⟩]
    subjects := []
    faculty := []
    lessons := [] }

/-- A sample cell for span tests. -/
def sampleCell (t : String) : Option CellData :=
  some ⟨"Ma", some "JD", none, some "Ma", none, t⟩

/-- A sample six-period row: Single, Double (consuming period 2), an unseen
Triple in the consumed slot, an empty period, and a Double at the edge. -/
def sampleRow : List (Option CellData) :=
  [sampleCell "Single", sampleCell "Double", sampleCell "Triple", none,
   sampleCell "Single", sampleCell "Double"]

/-- Well-formedness of a grid against the resolved dimensions: every day
bucket of every class is keyed by a configured day and has exactly
`periods_per_day` slots. -/
def GridShape (days : List String) (ppd : Nat) (g : Grid) : Prop :=
  ∀ p ∈ g, ∀ q ∈ p.2, q.1 ∈ days ∧ q.2.length = ppd

/-! # Theorems -/

/-! ## Shared helper lemmas -/

/-- A swap half with either cell row missing leaves the table unchanged. -/
theorem swapHalf_of_none {α ν : Type} (setv : α → ν → α) (getv : α → ν)
    (m1 m2 : α → Bool) (rows : List α)
    (h : rows.find? m1 = none ∨ rows.find? m2 = none) :
    swapHalf setv getv m1 m2 rows = rows := by
  unfold swapHalf
  rcases h with h | h
  · rw [h]
  · rw [h]; cases rows.find? m1 <;> rfl

/-! ## C1 — what the whole-store conflict detector scans -/

/-- C1 counterexample: the claim says the whole-store detector
(`check_faculty_conflicts`) returns the current-schema self-join pairs *and*
the legacy-schema self-join pairs.  On a store whose only double-booking
lives in the legacy schema, the legacy scan (modelled from the spec) yields
two pairs while the whole-store detector returns the empty list, so its
output is not the concatenation of the two scans. -/
theorem C1_counterexample :
    (check_faculty_conflicts dbLegacyOnlyConflict).1 = [] ∧
    detect_conflicts_legacy_spec dbLegacyOnlyConflict
      = [("Mo", 1, some "JD", "CSE", "ECE"), ("Mo", 1, some "JD", "ECE", "CSE")] :=
  ⟨by decide, by decide⟩

/-- C1 (amended): the whole-store detector returns exactly the current-schema
self-join pairs — its conflict list is a function of the `SCHEDULE` table
alone, unaffected by the legacy table — while the two-scan concatenation
(current-schema scan first, no deduplication) is performed only by the
section-scoped detector `_check_faculty_conflicts` of `temp_timetable.py`. -/
theorem C1_theorem :
    (∀ db : Db, (check_faculty_conflicts db).1 = scheduleConflictPairs db.schedule) ∧
    (∀ (sched : List ScheduleRow) (l l' : List LessonRow) (subj : List SubjectRow)
        (fac : List FacultyRow) (les : List LessonTypeRow),
      (check_faculty_conflicts ⟨sched, l, subj, fac, les⟩).1
        = (check_faculty_conflicts ⟨sched, l', subj, fac, les⟩).1) ∧
    (∀ (db : Db) (sec : String),
      tt_check_faculty_conflicts db sec
        = ttCurrentConflicts db sec ++ legacyConflictPairs db (some sec)) :=
  ⟨fun _ => rfl, fun _ _ _ _ _ _ => rfl, fun _ _ => rfl⟩

/-! ## C2 — NUM_PERIODS versus PERIODS_CONFIG -/

/-- C2 counterexample: with `PERIODS_CONFIG = "1:8:00-8:45,2:9:00-9:45"` and
`NUM_PERIODS = "3"` both present, the claim says the resolved period map
equals the parsed `PERIODS_CONFIG` pairs; the code instead returns the
default map truncated to three periods. -/
theorem C2_counterexample :
    (load_timetable_structure (some ⟨true,
        [("PERIODS_CONFIG", "1:8:00-8:45,2:9:00-9:45"), ("NUM_PERIODS", "3")]⟩)).2
      = [(1, "8:00 - 8:45"), (2, "9:00 - 9:45"), (3, "10:00 - 10:45")] ∧
    ([(1, "8:00 - 8:45"), (2, "9:00 - 9:45"), (3, "10:00 - 10:45")] : List (Int × String))
      ≠ [(1, "8:00-8:45"), (2, "9:00-9:45")] :=
  ⟨by decide, by decide⟩

/-- C2 (amended): whenever `NUM_PERIODS` is present, non-empty and parses as
an integer `n`, the resolved period map is the default map truncated to
`k ≤ n` — regardless of `PERIODS_CONFIG`; a present, parseable, non-empty
`PERIODS_CONFIG` determines the period map only when `NUM_PERIODS` is
absent, empty or unparseable. -/
theorem C2_theorem (rows : List (String × String)) :
    (∀ (v : String) (n : Int),
      settingLookup ⟨true, rows⟩ "NUM_PERIODS" = some v → v ≠ "" →
      pyParseInt v = some n →
      (load_timetable_structure (some ⟨true, rows⟩)).2
        = DEFAULT_PERIODS_INFO.filter (fun kv => kv.1 ≤ n)) ∧
    (∀ (w : String) (d : List (Int × String)),
      (settingLookup ⟨true, rows⟩ "NUM_PERIODS" = none ∨
        settingLookup ⟨true, rows⟩ "NUM_PERIODS" = some "" ∨
        (∃ v, settingLookup ⟨true, rows⟩ "NUM_PERIODS" = some v ∧ pyParseInt v = none)) →
      settingLookup ⟨true, rows⟩ "PERIODS_CONFIG" = some w → w ≠ "" →
      parsePeriodsConfig w = some d → d ≠ [] →
      (load_timetable_structure (some ⟨true, rows⟩)).2 = d) := by
  have hstep : ∀ (w : String) (d : List (Int × String)),
      settingLookup ⟨true, rows⟩ "PERIODS_CONFIG" = some w → w ≠ "" →
      parsePeriodsConfig w = some d → d ≠ [] →
      resolvePeriodsConfigStep ⟨true, rows⟩ = d := by
    intro w d hw hwne hparse hdne
    unfold resolvePeriodsConfigStep
    rw [hw]
    simp only [hwne, ne_eq, not_false_eq_true, if_true, hparse, hdne, ite_true]
  constructor
  · intro v n hv hvne hp
    show resolvePeriods ⟨true, rows⟩ = _
    unfold resolvePeriods
    rw [hv]
    simp only [hvne, ne_eq, not_false_eq_true, if_true, hp]
  · intro w d hnum hw hwne hparse hdne
    show resolvePeriods ⟨true, rows⟩ = _
    unfold resolvePeriods
    rcases hnum with h | h | ⟨v, hv, hpv⟩
    · rw [h]; exact hstep w d hw hwne hparse hdne
    · rw [h]; simp only [ne_eq, not_true_eq_false, if_false]
      exact hstep w d hw hwne hparse hdne
    · rw [hv]
      simp only [ne_eq]
      by_cases hve : v = ""
      · simp only [hve, not_true_eq_false, if_false]
        exact hstep w d hw hwne hparse hdne
      · simp only [hve, not_false_eq_true, if_true, hpv]
        exact hstep w d hw hwne hparse hdne

/-- C2 witness: `NUM_PERIODS = "4"` truncates the default map to four
periods. -/
theorem C2_witness :
    (load_timetable_structure (some ⟨true, [("NUM_PERIODS", "4")]⟩)).2
      = DEFAULT_PERIODS_INFO.filter (fun kv => kv.1 ≤ 4) :=
  (C2_theorem [("NUM_PERIODS", "4")]).1 "4" 4 (by decide) (by decide) (by decide)

/-! ## C5 — non-emptiness of the resolved structure -/

/-- C5 counterexample: the claim says the resolver never returns an empty day
list even for a `DAYS_ENABLED` value listing arbitrary day codes; with
`DAYS_ENABLED = "Xx"` the resolved day list is empty. -/
theorem C5_counterexample :
    (load_timetable_structure (some ⟨true, [("DAYS_ENABLED", "Xx")]⟩)).1 = [] := by
  decide

/-- C5 (amended): the static six-day / six-period defaults (non-empty) are
returned when the store is absent or the settings table is missing; but with
the table present, a `DAYS_ENABLED` value sharing no code with the default
day list yields an empty day list, and a `NUM_PERIODS` value parsing to an
integer below 1 yields an empty period map. -/
theorem C5_theorem :
    (load_timetable_structure none = (DEFAULT_DAYS, DEFAULT_PERIODS_INFO) ∧
      DEFAULT_DAYS ≠ [] ∧ DEFAULT_PERIODS_INFO ≠ []) ∧
    (∀ rows : List (String × String),
      load_timetable_structure (some ⟨false, rows⟩) = (DEFAULT_DAYS, DEFAULT_PERIODS_INFO)) ∧
    (load_timetable_structure (some ⟨true, [("DAYS_ENABLED", "Zz,Qq")]⟩)).1 = [] ∧
    (load_timetable_structure (some ⟨true, [("NUM_PERIODS", "0")]⟩)).2 = [] :=
  ⟨⟨rfl, by decide, by decide⟩, fun _ => rfl, by decide, by decide⟩

/-! ## C6 — the "NULL" sentinel -/

/-- C6 counterexample: the claim says every operation reading the current
schema treats the literal string `"NULL"` as unassigned, so no output carries
content derived from it; `load_timetable_data` performs no such filtering —
a row with `FINI = "NULL"` yields a grid cell whose teacher field is the
string `"NULL"`. -/
theorem C6_counterexample :
    gridCell (load_timetable_data dbNullSentinel ["CSE"] ["Monday"] 1) "CSE" "Monday" 0
      = some (some ⟨"", some "NULL", none, none, none, "Single"⟩) := by
  decide

/-- C6 (amended): only the `temp_timetable.py` display path treats the
sentinel — a `"NULL"` faculty code renders as `"-"` (others verbatim) and a
`"NULL"` joined subject code with no subject name renders as `"Free"` —
while `load_timetable_data` passes the sentinel through into the grid. -/
theorem C6_theorem :
    (∀ fini : String, fini ≠ "NULL" → tt_faculty_display fini = fini) ∧
    tt_faculty_display "NULL" = "-" ∧
    (∀ sub_name : Option String, (sub_name = none ∨ sub_name = some "") →
      tt_subject_display sub_name (some "NULL") = some "Free") ∧
    (gridCell (load_timetable_data dbNullSentinel ["CSE"] ["Monday"] 1) "CSE" "Monday" 0).map
        (fun c => c.map (fun cd => cd.teacher)) = some (some (some "NULL")) := by
  refine ⟨fun fini h => by simp [tt_faculty_display, h], by decide, ?_, by decide⟩
  rintro sub_name (rfl | rfl) <;> decide

/-- C6 witness: the display path at ordinary and sentinel inputs. -/
theorem C6_witness :
    tt_faculty_display "JD" = "JD" ∧ tt_subject_display none (some "NULL") = some "Free" :=
  ⟨C6_theorem.1 "JD" (by decide), C6_theorem.2.2.1 none (Or.inl rfl)⟩

/-! ## C10 — a schema is written only when both swapped cells have a row -/

/-- C10: within each schema, the swap updates rows only when *both* swapped
cells have an existing row there; if either lookup comes back empty, that
entire schema table is left unchanged. -/
theorem C10_theorem (db : Db) (class_names : List String)
    (cell1 cell2 : Nat × Nat × Nat) (n1 n2 : String)
    (h1 : resolveClassName class_names cell1.1 = some n1)
    (h2 : resolveClassName class_names cell2.1 = some n2) :
    ((db.schedule.find? (schedMatch n1 cell1.2.1 cell1.2.2) = none ∨
      db.schedule.find? (schedMatch n2 cell2.2.1 cell2.2.2) = none) →
      (update_db_with_cell_swap db class_names cell1 cell2).schedule = db.schedule) ∧
    (∀ c1 c2 : String, day_codes.get? cell1.2.1 = some c1 →
      day_codes.get? cell2.2.1 = some c2 →
      (db.scheduledLessons.find? (lessonMatch n1 c1 ((cell1.2.2 : Int) + 1)) = none ∨
       db.scheduledLessons.find? (lessonMatch n2 c2 ((cell2.2.2 : Int) + 1)) = none) →
      (update_db_with_cell_swap db class_names cell1 cell2).scheduledLessons
        = db.scheduledLessons) := by
  constructor
  · intro h
    unfold update_db_with_cell_swap
    rw [h1, h2]
    simp only []
    exact swapHalf_of_none _ _ _ _ _ h
  · intro c1 c2 hc1 hc2 h
    unfold update_db_with_cell_swap
    rw [h1, h2]
    simp only []
    rw [hc1, hc2]
    simp only []
    exact swapHalf_of_none _ _ _ _ _ h

/-- C10 witness: swapping `(CSE, Mo, 0)` with `(ECE, Tu, 1)` on a store where
only the first cell has rows leaves both schema tables unchanged. -/
theorem C10_witness :
    (update_db_with_cell_swap dbOneSidedCell ["CSE", "ECE"] (0, 0, 0) (1, 1, 1)).schedule
      = dbOneSidedCell.schedule ∧
    (update_db_with_cell_swap dbOneSidedCell ["CSE", "ECE"] (0, 0, 0) (1, 1, 1)).scheduledLessons
      = dbOneSidedCell.scheduledLessons := by
  have h := C10_theorem dbOneSidedCell ["CSE", "ECE"] (0, 0, 0) (1, 1, 1) "CSE" "ECE"
    (by decide) (by decide)
  exact ⟨h.1 (Or.inr (by decide)), h.2 "Mo" "Tu" (by decide) (by decide) (Or.inr (by decide))⟩

/-! ## C8 — the swap only overwrites existing rows -/

/-- Reduction of the swap when a class name fails to resolve. -/
theorem update_db_with_cell_swap_none (db : Db) (class_names : List String)
    (cell1 cell2 : Nat × Nat × Nat)
    (h : resolveClassName class_names cell1.1 = none ∨
      resolveClassName class_names cell2.1 = none) :
    update_db_with_cell_swap db class_names cell1 cell2 = db := by
  unfold update_db_with_cell_swap
  rcases h with h | h
  · rw [h]
  · rw [h]; cases resolveClassName class_names cell1.1 <;> rfl

/-- Reduction of the swap when both class names resolve. -/
theorem update_db_with_cell_swap_some (db : Db) (class_names : List String)
    (cell1 cell2 : Nat × Nat × Nat) (n1 n2 : String)
    (h1 : resolveClassName class_names cell1.1 = some n1)
    (h2 : resolveClassName class_names cell2.1 = some n2) :
    update_db_with_cell_swap db class_names cell1 cell2 =
      { db with
        schedule :=
          swapHalf schedSet schedGet
            (schedMatch n1 cell1.2.1 cell1.2.2)
            (schedMatch n2 cell2.2.1 cell2.2.2) db.schedule
        scheduledLessons :=
          match day_codes.get? cell1.2.1, day_codes.get? cell2.2.1 with
          | some day1_code, some day2_code =>
              swapHalf lessonSet lessonGet
                (lessonMatch n1 day1_code ((cell1.2.2 : Int) + 1))
                (lessonMatch n2 day2_code ((cell2.2.2 : Int) + 1))
                db.scheduledLessons
          | _, _ => db.scheduledLessons } := by
  unfold update_db_with_cell_swap
  rw [h1, h2]

/-- Two successive conditional-update passes relate every output row to its
input row by at most two value writes. -/
theorem tableUpd_tableUpd_forall2 {α ν : Type} (setv : α → ν → α)
    (m1 m2 : α → Bool) (v w : ν) (rows : List α) (P : α → α → Prop)
    (h0 : ∀ r ∈ rows, P r r)
    (h1 : ∀ r ∈ rows, ∀ u, P r (setv r u))
    (h2 : ∀ r ∈ rows, ∀ u u', P r (setv (setv r u) u')) :
    List.Forall₂ P rows (tableUpd m2 w setv (tableUpd m1 v setv rows)) := by
  unfold tableUpd
  rw [List.map_map, List.forall₂_map_right_iff]
  refine List.forall₂_same.mpr (fun r hr => ?_)
  cases hm1 : m1 r
  · cases hm2 : m2 r
    · simpa [Function.comp, hm1, hm2] using h0 r hr
    · simpa [Function.comp, hm1, hm2] using h1 r hr w
  · cases hm2 : m2 (setv r v)
    · simpa [Function.comp, hm1, hm2] using h1 r hr v
    · simpa [Function.comp, hm1, hm2] using h2 r hr v w

/-- Pointwise relation between a table and its swap-half image. -/
theorem swapHalf_forall2 {α ν : Type} (setv : α → ν → α) (getv : α → ν)
    (m1 m2 : α → Bool) (rows : List α) (P : α → α → Prop)
    (h0 : ∀ r ∈ rows, P r r)
    (h1 : ∀ r ∈ rows, ∀ u, P r (setv r u))
    (h2 : ∀ r ∈ rows, ∀ u u', P r (setv (setv r u) u')) :
    List.Forall₂ P rows (swapHalf setv getv m1 m2 rows) := by
  unfold swapHalf
  cases rows.find? m1 with
  | none => exact List.forall₂_same.mpr h0
  | some s1 =>
      cases rows.find? m2 with
      | none => exact List.forall₂_same.mpr h0
      | some s2 => exact tableUpd_tableUpd_forall2 setv m1 m2 _ _ rows P h0 h1 h2

/-- A swap half preserves the table length (no row inserted or deleted). -/
theorem swapHalf_length {α ν : Type} (setv : α → ν → α) (getv : α → ν)
    (m1 m2 : α → Bool) (rows : List α) :
    (swapHalf setv getv m1 m2 rows).length = rows.length := by
  unfold swapHalf
  cases rows.find? m1 with
  | none => rfl
  | some s1 =>
      cases rows.find? m2 with
      | none => rfl
      | some s2 => show ((rows.map _).map _).length = _; simp

/-- Rows matching neither update pass come through both unchanged. -/
theorem tableUpd_tableUpd_frame {α ν : Type} (setv : α → ν → α)
    (m1 m2 : α → Bool) (v w : ν) (rows : List α) :
    List.Forall₂ (fun r r' => m1 r = false → m2 r = false → r' = r)
      rows (tableUpd m2 w setv (tableUpd m1 v setv rows)) := by
  unfold tableUpd
  rw [List.map_map, List.forall₂_map_right_iff]
  refine List.forall₂_same.mpr (fun r hr hm1 hm2 => ?_)
  simp [Function.comp, hm1, hm2]

/-- Rows matching neither swapped cell come through a swap half unchanged. -/
theorem swapHalf_frame {α ν : Type} (setv : α → ν → α) (getv : α → ν)
    (m1 m2 : α → Bool) (rows : List α) :
    List.Forall₂ (fun r r' => m1 r = false → m2 r = false → r' = r)
      rows (swapHalf setv getv m1 m2 rows) := by
  unfold swapHalf
  cases rows.find? m1 with
  | none => exact List.forall₂_same.mpr (fun r _ _ _ => rfl)
  | some s1 =>
      cases rows.find? m2 with
      | none => exact List.forall₂_same.mpr (fun r _ _ _ => rfl)
      | some s2 => exact tableUpd_tableUpd_frame setv m1 m2 _ _ rows

/-- C8: the swap only overwrites rows in place — both schema tables keep
their length (no row inserted or deleted), every row keeps its identity and
cell-key columns (only the subject/faculty value columns may change), rows
matching neither swapped cell are unchanged, a failed class-name resolution
leaves the whole store unchanged, and the non-lesson tables are never
touched. -/
theorem C8_theorem (db : Db) (class_names : List String)
    (cell1 cell2 : Nat × Nat × Nat) :
    ((update_db_with_cell_swap db class_names cell1 cell2).schedule.length
        = db.schedule.length ∧
      (update_db_with_cell_swap db class_names cell1 cell2).scheduledLessons.length
        = db.scheduledLessons.length) ∧
    List.Forall₂ (fun r r' : ScheduleRow =>
        r'.ID = r.ID ∧ r'.SECTION = r.SECTION ∧ r'.DAYID = r.DAYID ∧
          r'.PERIODID = r.PERIODID)
      db.schedule (update_db_with_cell_swap db class_names cell1 cell2).schedule ∧
    List.Forall₂ (fun r r' : LessonRow =>
        r'.SCHEDULE_ID = r.SCHEDULE_ID ∧ r'.CLASS_NAME = r.CLASS_NAME ∧
          r'.DAY_OF_WEEK = r.DAY_OF_WEEK ∧ r'.PERIOD_NUMBER = r.PERIOD_NUMBER)
      db.scheduledLessons
      (update_db_with_cell_swap db class_names cell1 cell2).scheduledLessons ∧
    (∀ n1 n2 : String, resolveClassName class_names cell1.1 = some n1 →
      resolveClassName class_names cell2.1 = some n2 →
      List.Forall₂ (fun r r' : ScheduleRow =>
          schedMatch n1 cell1.2.1 cell1.2.2 r = false →
          schedMatch n2 cell2.2.1 cell2.2.2 r = false → r' = r)
        db.schedule (update_db_with_cell_swap db class_names cell1 cell2).schedule) ∧
    (∀ (n1 n2 c1 c2 : String), resolveClassName class_names cell1.1 = some n1 →
      resolveClassName class_names cell2.1 = some n2 →
      day_codes.get? cell1.2.1 = some c1 → day_codes.get? cell2.2.1 = some c2 →
      List.Forall₂ (fun r r' : LessonRow =>
          lessonMatch n1 c1 ((cell1.2.2 : Int) + 1) r = false →
          lessonMatch n2 c2 ((cell2.2.2 : Int) + 1) r = false → r' = r)
        db.scheduledLessons
        (update_db_with_cell_swap db class_names cell1 cell2).scheduledLessons) ∧
    ((resolveClassName class_names cell1.1 = none ∨
        resolveClassName class_names cell2.1 = none) →
      update_db_with_cell_swap db class_names cell1 cell2 = db) ∧
    ((update_db_with_cell_swap db class_names cell1 cell2).subjects = db.subjects ∧
      (update_db_with_cell_swap db class_names cell1 cell2).faculty = db.faculty ∧
      (update_db_with_cell_swap db class_names cell1 cell2).lessons = db.lessons) := by
  have keyrefl₁ : ∀ r : ScheduleRow,
      r.ID = r.ID ∧ r.SECTION = r.SECTION ∧ r.DAYID = r.DAYID ∧ r.PERIODID = r.PERIODID :=
    fun r => ⟨rfl, rfl, rfl, rfl⟩
  have keyrefl₂ : ∀ r : LessonRow,
      r.SCHEDULE_ID = r.SCHEDULE_ID ∧ r.CLASS_NAME = r.CLASS_NAME ∧
        r.DAY_OF_WEEK = r.DAY_OF_WEEK ∧ r.PERIOD_NUMBER = r.PERIOD_NUMBER :=
    fun r => ⟨rfl, rfl, rfl, rfl⟩
  rcases hr1 : resolveClassName class_names cell1.1 with _ | n1
  · rw [update_db_with_cell_swap_none db class_names cell1 cell2 (Or.inl hr1)]
    refine ⟨⟨rfl, rfl⟩, List.forall₂_same.mpr (fun r _ => keyrefl₁ r),
      List.forall₂_same.mpr (fun r _ => keyrefl₂ r), ?_, ?_, fun _ => rfl, rfl, rfl, rfl⟩
    · intro n1 n2 h1 h2
      exact Option.noConfusion h1
    · intro n1 n2 c1 c2 h1 h2 _ _
      exact Option.noConfusion h1
  rcases hr2 : resolveClassName class_names cell2.1 with _ | n2
  · rw [update_db_with_cell_swap_none db class_names cell1 cell2 (Or.inr hr2)]
    refine ⟨⟨rfl, rfl⟩, List.forall₂_same.mpr (fun r _ => keyrefl₁ r),
      List.forall₂_same.mpr (fun r _ => keyrefl₂ r), ?_, ?_, fun _ => rfl, rfl, rfl, rfl⟩
    · intro n1' n2' h1 h2
      exact Option.noConfusion h2
    · intro n1' n2' c1 c2 h1 h2 _ _
      exact Option.noConfusion h2
  rw [update_db_with_cell_swap_some db class_names cell1 cell2 n1 n2 hr1 hr2]
  refine ⟨⟨swapHalf_length _ _ _ _ _, ?_⟩,
    swapHalf_forall2 _ _ _ _ _ _ (fun r _ => keyrefl₁ r) (fun r _ _ => ⟨rfl, rfl, rfl, rfl⟩)
      (fun r _ _ _ => ⟨rfl, rfl, rfl, rfl⟩),
    ?_, ?_, ?_, ?_, rfl, rfl, rfl⟩
  · cases day_codes.get? cell1.2.1 with
    | none => rfl
    | some c1 =>
        cases day_codes.get? cell2.2.1 with
        | none => rfl
        | some c2 => exact swapHalf_length _ _ _ _ _
  · cases day_codes.get? cell1.2.1 with
    | none => exact List.forall₂_same.mpr (fun r _ => keyrefl₂ r)
    | some c1 =>
        cases day_codes.get? cell2.2.1 with
        | none => exact List.forall₂_same.mpr (fun r _ => keyrefl₂ r)
        | some c2 =>
            exact swapHalf_forall2 _ _ _ _ _ _ (fun r _ => keyrefl₂ r)
              (fun r _ _ => ⟨rfl, rfl, rfl, rfl⟩) (fun r _ _ _ => ⟨rfl, rfl, rfl, rfl⟩)
  · intro n1' n2' h1 h2
    cases h1; cases h2
    exact swapHalf_frame _ _ _ _ _
  · intro n1' n2' c1 c2 h1 h2 hc1 hc2
    cases h1; cases h2
    rw [hc1, hc2]
    exact swapHalf_frame _ _ _ _ _
  · intro h
    rcases h with h | h
    · exact Option.noConfusion h
    · exact Option.noConfusion h

/-- C8 witness: a concrete swap on `dbUniqueKeys` keeps lengths, keys and
non-swapped rows. -/
theorem C8_witness :
    List.Forall₂ (fun r r' : ScheduleRow =>
        schedMatch "CSE" ((0 : Nat) : Int) ((0 : Nat) : Int) r = false →
        schedMatch "ECE" ((0 : Nat) : Int) ((1 : Nat) : Int) r = false → r' = r)
      dbUniqueKeys.schedule
      (update_db_with_cell_swap dbUniqueKeys ["CSE", "ECE"] (0, 0, 0) (1, 0, 1)).schedule ∧
    (update_db_with_cell_swap dbUniqueKeys ["CSE", "ECE"] (0, 0, 0) (1, 0, 1)).schedule.length
      = dbUniqueKeys.schedule.length := by
  have h := C8_theorem dbUniqueKeys ["CSE", "ECE"] (0, 0, 0) (1, 0, 1)
  exact ⟨h.2.2.2.1 "CSE" "ECE" (by decide) (by decide), h.1.1⟩

/-! ## C7 — the swap as an involution on storage -/

/-- Looking up the updated key after an update finds the updated row. -/
theorem find?_tableUpd_same {α ν : Type} (setv : α → ν → α) (m : α → Bool)
    (v : ν) (rows : List α) (hk : ∀ r u, m (setv r u) = m r) :
    (tableUpd m v setv rows).find? m = (rows.find? m).map (fun r => setv r v) := by
  induction rows with
  | nil => rfl
  | cons r rest ih =>
      show (((if m r = true then setv r v else r)) :: tableUpd m v setv rest).find? m = _
      cases hm : m r with
      | false =>
          rw [if_neg (by simp [hm])]
          rw [List.find?_cons_of_neg _ (by simp [hm]),
            List.find?_cons_of_neg _ (by simp [hm])]
          exact ih
      | true =>
          rw [if_pos rfl]
          rw [List.find?_cons_of_pos _ (by rw [hk]; exact hm),
            List.find?_cons_of_pos _ hm]
          rfl

/-- Looking up a key disjoint from the updated one is unaffected. -/
theorem find?_tableUpd_other {α ν : Type} (setv : α → ν → α) (m m' : α → Bool)
    (v : ν) (rows : List α) (hk : ∀ r u, m' (setv r u) = m' r)
    (hd : ∀ r, ¬(m r = true ∧ m' r = true)) :
    (tableUpd m v setv rows).find? m' = rows.find? m' := by
  induction rows with
  | nil => rfl
  | cons r rest ih =>
      show (((if m r = true then setv r v else r)) :: tableUpd m v setv rest).find? m' = _
      cases hm' : m' r with
      | false =>
          have he : m' (if m r = true then setv r v else r) = false := by
            cases hm : m r
            · simp [hm, hm']
            · simp [hm, hk, hm']
          rw [List.find?_cons_of_neg _ (by simp [he]),
            List.find?_cons_of_neg _ (by simp [hm'])]
          exact ih
      | true =>
          have hm : m r = false := by
            cases hmr : m r
            · rfl
            · exact absurd ⟨hmr, hm'⟩ (hd r)
          rw [if_neg (by simp [hm])]
          rw [List.find?_cons_of_pos _ hm', List.find?_cons_of_pos _ hm']

/-- Updating the same key twice keeps only the second write. -/
theorem tableUpd_tableUpd_same {α ν : Type} (setv : α → ν → α) (m : α → Bool)
    (v w : ν) (rows : List α) (hk : ∀ r u, m (setv r u) = m r)
    (hss : ∀ r u u', setv (setv r u) u' = setv r u') :
    tableUpd m w setv (tableUpd m v setv rows) = tableUpd m w setv rows := by
  unfold tableUpd
  rw [List.map_map]
  apply List.map_congr_left
  intro r _
  cases hm : m r
  · simp [Function.comp, hm]
  · simp [Function.comp, hm, hk, hss]

/-- Updates at disjoint keys commute. -/
theorem tableUpd_comm {α ν : Type} (setv : α → ν → α) (m m' : α → Bool)
    (v w : ν) (rows : List α) (hd : ∀ r, ¬(m r = true ∧ m' r = true))
    (hk : ∀ r u, m (setv r u) = m r) (hk' : ∀ r u, m' (setv r u) = m' r) :
    tableUpd m v setv (tableUpd m' w setv rows)
      = tableUpd m' w setv (tableUpd m v setv rows) := by
  unfold tableUpd
  rw [List.map_map, List.map_map]
  apply List.map_congr_left
  intro r _
  cases hm : m r <;> cases hm' : m' r
  · simp [Function.comp, hm, hm']
  · simp [Function.comp, hm, hm', hk, hk']
  · simp [Function.comp, hm, hm', hk, hk']
  · exact absurd ⟨hm, hm'⟩ (hd r)

/-- An update writing each matching row's own value is the identity. -/
theorem tableUpd_id_of {α ν : Type} (setv : α → ν → α) (m : α → Bool) (v : ν)
    (rows : List α) (h : ∀ r ∈ rows, m r = true → setv r v = r) :
    tableUpd m v setv rows = rows := by
  unfold tableUpd
  have he : rows.map (fun r => if m r = true then setv r v else r) = rows.map id := by
    apply List.map_congr_left
    intro r hr
    cases hm : m r
    · simp [hm]
    · simp [hm, h r hr hm]
  rw [he, List.map_id]

/-- The swap half applied twice restores the table, provided the two cell
keys are disjoint or identical as predicates, value writes commute with key
matching, and each key matches at most one row. -/
theorem swapHalf_involution {α ν : Type} (setv : α → ν → α) (getv : α → ν)
    (m1 m2 : α → Bool) (rows : List α)
    (hk1 : ∀ r u, m1 (setv r u) = m1 r) (hk2 : ∀ r u, m2 (setv r u) = m2 r)
    (hss : ∀ r u u', setv (setv r u) u' = setv r u')
    (hsg : ∀ r, setv r (getv r) = r)
    (hgs : ∀ r u, getv (setv r u) = u)
    (hd : (∀ r, ¬(m1 r = true ∧ m2 r = true)) ∨ m1 = m2)
    (hu1 : ∀ r ∈ rows, ∀ s ∈ rows, m1 r = true → m1 s = true → r = s)
    (hu2 : ∀ r ∈ rows, ∀ s ∈ rows, m2 r = true → m2 s = true → r = s) :
    swapHalf setv getv m1 m2 (swapHalf setv getv m1 m2 rows) = rows := by
  rcases hf1 : rows.find? m1 with _ | s1
  · have e1 : swapHalf setv getv m1 m2 rows = rows :=
      swapHalf_of_none setv getv m1 m2 rows (Or.inl hf1)
    rw [e1, e1]
  rcases hf2 : rows.find? m2 with _ | s2
  · have e1 : swapHalf setv getv m1 m2 rows = rows :=
      swapHalf_of_none setv getv m1 m2 rows (Or.inr hf2)
    rw [e1, e1]
  have hs1mem : s1 ∈ rows := List.mem_of_find?_eq_some hf1
  have hs2mem : s2 ∈ rows := List.mem_of_find?_eq_some hf2
  have hs1m : m1 s1 = true := List.find?_some hf1
  have hs2m : m2 s2 = true := List.find?_some hf2
  have hid1 : tableUpd m1 (getv s1) setv rows = rows := by
    apply tableUpd_id_of
    intro r hr hm
    rw [hu1 r hr s1 hs1mem hm hs1m]
    exact hsg s1
  have hid2 : tableUpd m2 (getv s2) setv rows = rows := by
    apply tableUpd_id_of
    intro r hr hm
    rw [hu2 r hr s2 hs2mem hm hs2m]
    exact hsg s2
  rcases hd with hdisj | heq
  · -- disjoint keys: expand both applications and cancel update by update
    have e1 : swapHalf setv getv m1 m2 rows
        = tableUpd m2 (getv s1) setv (tableUpd m1 (getv s2) setv rows) := by
      unfold swapHalf
      rw [hf1, hf2]
    have hdisj' : ∀ r, ¬(m2 r = true ∧ m1 r = true) :=
      fun r h => hdisj r ⟨h.2, h.1⟩
    have hfind1 : (swapHalf setv getv m1 m2 rows).find? m1 = some (setv s1 (getv s2)) := by
      rw [e1, find?_tableUpd_other setv m2 m1 _ _ hk1 hdisj',
        find?_tableUpd_same setv m1 _ _ hk1, hf1]
      rfl
    have hfind2 : (swapHalf setv getv m1 m2 rows).find? m2 = some (setv s2 (getv s1)) := by
      rw [e1, find?_tableUpd_same setv m2 _ _ hk2,
        find?_tableUpd_other setv m1 m2 _ _ hk2 hdisj, hf2]
      rfl
    have e2 : swapHalf setv getv m1 m2 (swapHalf setv getv m1 m2 rows)
        = tableUpd m2 (getv (setv s1 (getv s2))) setv
            (tableUpd m1 (getv (setv s2 (getv s1))) setv (swapHalf setv getv m1 m2 rows)) := by
      conv_lhs => rw [swapHalf]
      rw [hfind1, hfind2]
    rw [e2, hgs, hgs, e1]
    rw [tableUpd_comm setv m1 m2 _ _ _ hdisj hk1 hk2]
    rw [tableUpd_tableUpd_same setv m1 _ _ _ hk1 hss, hid1]
    rw [tableUpd_tableUpd_same setv m2 _ _ _ hk2 hss, hid2]
  · -- identical keys: the first application is already the identity
    subst heq
    have e1 : swapHalf setv getv m1 m1 rows = rows := by
      have h : tableUpd m1 (getv s1) setv (tableUpd m1 (getv s1) setv rows) = rows := by
        rw [tableUpd_tableUpd_same setv m1 _ _ _ hk1 hss, hid1]
      unfold swapHalf
      rw [hf1]
      exact h
    rw [e1, e1]

/-- C7 counterexample: on a store where the swapped cell `(CSE, 0, 0)` has
two `SCHEDULE` rows with different values (the spec notes the key is not
strictly unique), swapping and swapping back does not restore the store:
both duplicate rows end up holding the first row's values. -/
theorem C7_counterexample :
    update_db_with_cell_swap
        (update_db_with_cell_swap dbDuplicateRows ["CSE", "ECE"] (0, 0, 0) (1, 0, 1))
        ["CSE", "ECE"] (0, 0, 0) (1, 0, 1) ≠ dbDuplicateRows := by
  decide

/-- C7 (amended): applying the swap twice restores the stored grid content
exactly — in both schemas — provided each schema holds at most one row per
cell key (section, day, period); with duplicate rows per key the round trip
collapses the duplicates to the first-read value. -/
theorem C7_theorem (db : Db) (class_names : List String) (cell1 cell2 : Nat × Nat × Nat)
    (hu_sched : ∀ r ∈ db.schedule, ∀ s ∈ db.schedule,
      r.SECTION = s.SECTION → r.DAYID = s.DAYID → r.PERIODID = s.PERIODID → r = s)
    (hu_les : ∀ r ∈ db.scheduledLessons, ∀ s ∈ db.scheduledLessons,
      r.CLASS_NAME = s.CLASS_NAME → r.DAY_OF_WEEK = s.DAY_OF_WEEK →
        r.PERIOD_NUMBER = s.PERIOD_NUMBER → r = s) :
    update_db_with_cell_swap (update_db_with_cell_swap db class_names cell1 cell2)
      class_names cell1 cell2 = db := by
  rcases hr1 : resolveClassName class_names cell1.1 with _ | n1
  · rw [update_db_with_cell_swap_none _ _ _ _ (Or.inl hr1),
      update_db_with_cell_swap_none _ _ _ _ (Or.inl hr1)]
  rcases hr2 : resolveClassName class_names cell2.1 with _ | n2
  · rw [update_db_with_cell_swap_none _ _ _ _ (Or.inr hr2),
      update_db_with_cell_swap_none _ _ _ _ (Or.inr hr2)]
  obtain ⟨sched, slessons, subj, fac, les⟩ := db
  have hS : swapHalf schedSet schedGet
      (schedMatch n1 cell1.2.1 cell1.2.2) (schedMatch n2 cell2.2.1 cell2.2.2)
      (swapHalf schedSet schedGet
        (schedMatch n1 cell1.2.1 cell1.2.2) (schedMatch n2 cell2.2.1 cell2.2.2) sched)
      = sched := by
    apply swapHalf_involution
    · exact fun r u => rfl
    · exact fun r u => rfl
    · exact fun r u u' => rfl
    · exact fun r => rfl
    · exact fun r u => rfl
    · by_cases hkey : n1 = n2 ∧ (cell1.2.1 : Int) = (cell2.2.1 : Int) ∧
          (cell1.2.2 : Int) = (cell2.2.2 : Int)
      · right
        rw [hkey.1, hkey.2.1, hkey.2.2]
      · left
        intro r hb
        obtain ⟨a, b⟩ := hb
        simp only [schedMatch, Bool.and_eq_true, decide_eq_true_eq] at a b
        exact hkey ⟨a.1.1.symm.trans b.1.1, a.1.2.symm.trans b.1.2, a.2.symm.trans b.2⟩
    · intro r hr s hs hmr hms
      simp only [schedMatch, Bool.and_eq_true, decide_eq_true_eq] at hmr hms
      exact hu_sched r hr s hs (hmr.1.1.trans hms.1.1.symm) (hmr.1.2.trans hms.1.2.symm)
        (hmr.2.trans hms.2.symm)
    · intro r hr s hs hmr hms
      simp only [schedMatch, Bool.and_eq_true, decide_eq_true_eq] at hmr hms
      exact hu_sched r hr s hs (hmr.1.1.trans hms.1.1.symm) (hmr.1.2.trans hms.1.2.symm)
        (hmr.2.trans hms.2.symm)
  rw [update_db_with_cell_swap_some _ _ _ _ n1 n2 hr1 hr2,
    update_db_with_cell_swap_some _ _ _ _ n1 n2 hr1 hr2]
  rcases hdc1 : day_codes.get? cell1.2.1 with _ | c1 <;>
    rcases hdc2 : day_codes.get? cell2.2.1 with _ | c2 <;>
    dsimp only [] <;>
    rw [hS]
  case some.some =>
    have hL : swapHalf lessonSet lessonGet
        (lessonMatch n1 c1 ((cell1.2.2 : Int) + 1)) (lessonMatch n2 c2 ((cell2.2.2 : Int) + 1))
        (swapHalf lessonSet lessonGet
          (lessonMatch n1 c1 ((cell1.2.2 : Int) + 1))
          (lessonMatch n2 c2 ((cell2.2.2 : Int) + 1)) slessons)
        = slessons := by
      apply swapHalf_involution
      · exact fun r u => rfl
      · exact fun r u => rfl
      · exact fun r u u' => rfl
      · exact fun r => rfl
      · exact fun r u => rfl
      · by_cases hkey : n1 = n2 ∧ c1 = c2 ∧
            ((cell1.2.2 : Int) + 1 = (cell2.2.2 : Int) + 1)
        · right
          rw [hkey.1, hkey.2.1, hkey.2.2]
        · left
          intro r hb
          obtain ⟨a, b⟩ := hb
          simp only [lessonMatch, Bool.and_eq_true, decide_eq_true_eq] at a b
          exact hkey ⟨a.1.1.symm.trans b.1.1, a.1.2.symm.trans b.1.2, a.2.symm.trans b.2⟩
      · intro r hr s hs hmr hms
        simp only [lessonMatch, Bool.and_eq_true, decide_eq_true_eq] at hmr hms
        exact hu_les r hr s hs (hmr.1.1.trans hms.1.1.symm) (hmr.1.2.trans hms.1.2.symm)
          (hmr.2.trans hms.2.symm)
      · intro r hr s hs hmr hms
        simp only [lessonMatch, Bool.and_eq_true, decide_eq_true_eq] at hmr hms
        exact hu_les r hr s hs (hmr.1.1.trans hms.1.1.symm) (hmr.1.2.trans hms.1.2.symm)
          (hmr.2.trans hms.2.symm)
    rw [hL]

/-- C7 witness: on a store with unique cell keys, a concrete double swap is
the identity. -/
theorem C7_witness :
    update_db_with_cell_swap
        (update_db_with_cell_swap dbUniqueKeys ["CSE", "ECE"] (0, 0, 0) (1, 0, 1))
        ["CSE", "ECE"] (0, 0, 0) (1, 0, 1) = dbUniqueKeys :=
  C7_theorem dbUniqueKeys ["CSE", "ECE"] (0, 0, 0) (1, 0, 1) (by decide) (by decide)

/-! ## C4 — grid bounds: shape lemmas -/

/-- Inserting a key then reading it back. -/
theorem dictGet_insert_self {β : Type} (k : String) (v : β) (d : List (String × β)) :
    dictGet k (dictInsert k v d) = some v := by
  induction d with
  | nil => simp [dictInsert, dictGet]
  | cons e rest ih =>
      obtain ⟨k', v'⟩ := e
      unfold dictInsert
      by_cases h : k' = k
      · simp [h, dictGet]
      · simp [h, dictGet, ih]

/-- Inserting one key leaves other keys unchanged. -/
theorem dictGet_insert_other {β : Type} (k k' : String) (v : β)
    (d : List (String × β)) (h : k' ≠ k) :
    dictGet k (dictInsert k' v d) = dictGet k d := by
  induction d with
  | nil => simp [dictInsert, dictGet, h]
  | cons e rest ih =>
      obtain ⟨k'', v''⟩ := e
      unfold dictInsert
      by_cases h2 : k'' = k'
      · subst h2
        simp [dictGet, h]
      · simp only [h2, if_false]
        unfold dictGet
        by_cases h3 : k'' = k
        · simp [h3]
        · simp [h3, ih]

/-- A successful lookup is a membership. -/
theorem dictGet_mem {β : Type} (k : String) (v : β) (d : List (String × β))
    (h : dictGet k d = some v) : (k, v) ∈ d := by
  induction d with
  | nil => cases h
  | cons e rest ih =>
      obtain ⟨k', v'⟩ := e
      unfold dictGet at h
      by_cases he : k' = k
      · rw [if_pos he] at h
        cases h
        subst he
        exact List.mem_cons_self _ _
      · rw [if_neg he] at h
        exact List.mem_cons_of_mem _ (ih h)

/-- Every entry of an insertion is the new binding or an old entry. -/
theorem dictInsert_mem {β : Type} (k : String) (v : β) (d : List (String × β)) :
    ∀ e ∈ dictInsert k v d, e = (k, v) ∨ e ∈ d := by
  induction d with
  | nil => intro e he; simp [dictInsert] at he; exact Or.inl he
  | cons p rest ih =>
      obtain ⟨k', v'⟩ := p
      intro e he
      unfold dictInsert at he
      by_cases h : k' = k
      · rw [if_pos h] at he
        rcases List.mem_cons.mp he with he | he
        · exact Or.inl he
        · exact Or.inr (List.mem_cons_of_mem _ he)
      · rw [if_neg h] at he
        rcases List.mem_cons.mp he with he | he
        · exact Or.inr (by rw [he]; exact List.mem_cons_self _ _)
        · rcases ih e he with he' | he'
          · exact Or.inl he'
          · exact Or.inr (List.mem_cons_of_mem _ he')

/-- A Python list assignment never changes the length. -/
theorem pySetList_length {α : Type} (l : List α) (i : Int) (a : α) (l' : List α)
    (h : pySetList l i a = some l') : l'.length = l.length := by
  unfold pySetList at h
  by_cases hc : (0 : Int) ≤ (if i < 0 then i + l.length else i) ∧
      (if i < 0 then i + l.length else i) < (l.length : Int)
  · rw [if_pos hc] at h
    cases h
    exact List.length_set l _ a
  · rw [if_neg hc] at h
    cases h

/-- A Python list assignment at a non-negative index writes at that index. -/
theorem pySetList_nonneg {α : Type} (l : List α) (i : Int) (a : α) (l' : List α)
    (hi : 0 ≤ i) (h : pySetList l i a = some l') :
    i < (l.length : Int) ∧ l' = l.set i.toNat a := by
  have hneg : ¬ i < 0 := not_lt.mpr hi
  simp only [pySetList, hneg, if_false] at h
  by_cases hc : (0 : Int) ≤ i ∧ i < (l.length : Int)
  · rw [if_pos hc] at h
    cases h
    exact ⟨hc.2, rfl⟩
  · rw [if_neg hc] at h
    cases h

/-- A successful cell write preserves the grid shape. -/
theorem gridSetCell_shape (days : List String) (ppd : Nat) (g g' : Grid)
    (cls day : String) (i : Int) (c : Option CellData)
    (hg : GridShape days ppd g) (h : gridSetCell g cls day i c = some g') :
    GridShape days ppd g' := by
  unfold gridSetCell at h
  rcases hdd : dictGet cls g with _ | dd
  · rw [hdd] at h; simp at h
  rw [hdd] at h
  simp only [Option.some_bind] at h
  rcases hl : dictGet day dd with _ | l
  · rw [hl] at h; simp at h
  rw [hl] at h
  simp only [Option.some_bind] at h
  rcases hs : pySetList l i c with _ | l'
  · rw [hs] at h; simp at h
  rw [hs] at h
  simp only [Option.map_some'] at h
  cases h
  have hddmem : (cls, dd) ∈ g := dictGet_mem _ _ _ hdd
  have hlmem : (day, l) ∈ dd := dictGet_mem _ _ _ hl
  have hdayl := hg (cls, dd) hddmem (day, l) hlmem
  intro p hp
  rcases dictInsert_mem _ _ _ p hp with he | hpg
  · subst he
    intro q hq
    rcases dictInsert_mem _ _ _ q hq with he' | hqdd
    · subst he'
      exact ⟨hdayl.1, by rw [pySetList_length l i c l' hs]; exact hdayl.2⟩
    · exact hg (cls, dd) hddmem q hqdd
  · exact hg p hpg

/-- The initial grid is well-shaped. -/
theorem initGrid_shape (class_names days : List String) (ppd : Nat) :
    GridShape days ppd (initGrid class_names days ppd) := by
  have hinner : ∀ (ds : List String) (dd : List (String × List (Option CellData))),
      (∀ q ∈ dd, q.1 ∈ days ∧ q.2.length = ppd) → (∀ d ∈ ds, d ∈ days) →
      ∀ q ∈ ds.foldl (fun dd d => dictInsert d (List.replicate ppd none) dd) dd,
        q.1 ∈ days ∧ q.2.length = ppd := by
    intro ds
    induction ds with
    | nil => intro dd h _ q hq; exact h q hq
    | cons d rest ih =>
        intro dd h hds q hq
        refine ih _ ?_ ?_ q hq
        · intro q' hq'
          rcases dictInsert_mem _ _ _ q' hq' with he | hmem
          · rw [he]
            exact ⟨hds d (List.mem_cons_self _ _), List.length_replicate _ _⟩
          · exact h q' hmem
        · intro d' hd'
          exact hds d' (List.mem_cons_of_mem _ hd')
  have houter : ∀ (cs : List String) (g : Grid), GridShape days ppd g →
      GridShape days ppd (cs.foldl (fun g cls =>
        dictInsert cls
          (days.foldl (fun dd d => dictInsert d (List.replicate ppd none) dd) []) g) g) := by
    intro cs
    induction cs with
    | nil => intro g hg; exact hg
    | cons cls rest ih =>
        intro g hg
        refine ih _ ?_
        intro p hp
        rcases dictInsert_mem _ _ _ p hp with he | hmem
        · rw [he]
          exact hinner days [] (fun q hq => absurd hq (List.not_mem_nil q))
            (fun d hd => hd)
        · exact hg p hmem
  exact houter class_names [] (fun p hp => absurd hp (List.not_mem_nil p))

/-- The current-schema pass over one class preserves the grid shape. -/
theorem runCurrentEntries_shape (days : List String) (ppd : Nat) (cls : String)
    (sc lt : List (String × String)) :
    ∀ (lst : List CurrentEntry) (g : Grid), GridShape days ppd g →
      GridShape days ppd (runCurrentEntries days ppd cls sc lt lst g).1 := by
  intro lst
  induction lst with
  | nil => intro g hg; exact hg
  | cons e rest ih =>
      intro g hg
      unfold runCurrentEntries
      by_cases hc : currentDayName e.DAYID ∉ days ∨ (ppd : Int) ≤ e.PERIODID
      · rw [if_pos hc]
        exact ih g hg
      · rw [if_neg hc]
        rcases hs : gridSetCell g cls (currentDayName e.DAYID) e.PERIODID
            (some (currentCell sc lt e)) with _ | g'
        · exact hg
        · exact ih g' (gridSetCell_shape days ppd g g' _ _ _ _ hg hs)

/-- The current-schema pass preserves the grid shape. -/
theorem runCurrentPass_shape (db : Db) (days : List String) (ppd : Nat)
    (sc : List (String × String)) :
    ∀ (cs : List String) (g : Grid), GridShape days ppd g →
      GridShape days ppd (runCurrentPass db days ppd sc cs g).1 := by
  intro cs
  induction cs with
  | nil => intro g hg; exact hg
  | cons cls rest ih =>
      intro g hg
      unfold runCurrentPass
      rcases hr : runCurrentEntries days ppd cls sc (lessonTypesFor db cls)
          (currentEntries db cls) g with ⟨g', b⟩
      have hg' : GridShape days ppd g' := by
        have := runCurrentEntries_shape days ppd cls sc (lessonTypesFor db cls)
          (currentEntries db cls) g hg
        rw [hr] at this
        exact this
      cases b
      · exact hg'
      · exact ih g' hg'

/-- The legacy-schema pass over one class preserves the grid shape. -/
theorem runLegacyEntries_shape (days : List String) (ppd : Nat) (cls : String)
    (sc lt : List (String × String)) :
    ∀ (lst : List LegacyEntry) (g : Grid), GridShape days ppd g →
      GridShape days ppd (runLegacyEntries days ppd cls sc lt lst g) := by
  intro lst
  induction lst with
  | nil => intro g hg; exact hg
  | cons e rest ih =>
      intro g hg
      unfold runLegacyEntries
      by_cases hc : legacyDayName e.DAY_OF_WEEK ∉ days ∨
          (ppd : Int) ≤ e.PERIOD_NUMBER - 1 ∨ e.PERIOD_NUMBER - 1 < 0
      · rw [if_pos hc]
        exact ih g hg
      · rw [if_neg hc]
        by_cases hf : cellSubjectFalsy
            ((gridCell g cls (legacyDayName e.DAY_OF_WEEK)
              (e.PERIOD_NUMBER - 1).toNat).getD none) = true
        · rw [if_pos hf]
          rcases hs : gridSetCell g cls (legacyDayName e.DAY_OF_WEEK) (e.PERIOD_NUMBER - 1)
              (some (legacyCell sc lt e)) with _ | g'
          · exact ih g hg
          · exact ih g' (gridSetCell_shape days ppd g g' _ _ _ _ hg hs)
        · rw [if_neg hf]
          exact ih g hg

/-- The legacy-schema pass preserves the grid shape. -/
theorem runLegacyPass_shape (db : Db) (days : List String) (ppd : Nat)
    (sc : List (String × String)) :
    ∀ (cs : List String) (g : Grid), GridShape days ppd g →
      GridShape days ppd (runLegacyPass db days ppd sc cs g) := by
  intro cs
  induction cs with
  | nil => intro g hg; exact hg
  | cons cls rest ih =>
      intro g hg
      exact ih _ (runLegacyEntries_shape days ppd cls sc (lessonTypesFor db cls)
        (legacyEntries db cls) g hg)

/-- The loader output is always well-shaped. -/
theorem load_timetable_data_shape (db : Db) (class_names days : List String) (ppd : Nat) :
    GridShape days ppd (load_timetable_data db class_names days ppd) := by
  unfold load_timetable_data afterCurrentPass
  exact runLegacyPass_shape db days ppd _ class_names _
    (runCurrentPass_shape db days ppd _ class_names _
      (initGrid_shape class_names days ppd))

/-- C4 counterexample: the claim says any source row whose period falls
outside the grid — including negative periods — is silently dropped by both
passes; the current-schema pass has no negativity check, so a `SCHEDULE` row
with `PERIODID = -1` is written into the day's *last* cell (Python negative
indexing), not dropped. -/
theorem C4_counterexample :
    gridCell (load_timetable_data dbNegativePeriod ["CSE"] ["Monday"] 2) "CSE" "Monday" 1
      = some (some ⟨"Ma", some "JD", some "Maths", some "Ma", none, "Single"⟩) := by
  decide

/-- C4 (amended): every populated coordinate still satisfies the bounds (the
grid keeps exactly the configured days and `periods_per_day` slots per day,
so nothing is ever written outside it), and the legacy pass drops its
out-of-range rows — but in the current-schema pass a `PERIODID` in
`[-ppd, -1]` is written at index `ppd + PERIODID` rather than dropped, and a
`PERIODID` below `-ppd` silently aborts the remainder of the current pass
(here killing the following valid row as well). -/
theorem C4_theorem :
    (∀ (db : Db) (class_names days : List String) (ppd : Nat),
      GridShape days ppd (load_timetable_data db class_names days ppd)) ∧
    gridCell (load_timetable_data dbNegativePeriod ["CSE"] ["Monday"] 3) "CSE" "Monday" 2
      = some (some ⟨"Ma", some "JD", some "Maths", some "Ma", none, "Single"⟩) ∧
    load_timetable_data dbVeryNegativePeriod ["CSE"] ["Monday"] 2
      = [("CSE", [("Monday", [none, none])])] ∧
    load_timetable_data dbLegacyZeroPeriod ["CSE"] ["Monday"] 2
      = [("CSE", [("Monday", [none, none])])] :=
  ⟨fun db class_names days ppd => load_timetable_data_shape db class_names days ppd,
    by decide, by decide, by decide⟩

/-- C4 witness: the shape theorem applied to a concrete loaded grid. -/
theorem C4_witness :
    ("Monday" : String) ∈ ["Monday"] ∧
    ([none, none, some (⟨"Ma", some "JD", some "Maths", some "Ma", none,
        "Single"⟩ : CellData)] : List (Option CellData)).length = 3 :=
  (C4_theorem.1 dbNegativePeriod ["CSE"] ["Monday"] 3)
    ("CSE", [("Monday", [none, none,
      some ⟨"Ma", some "JD", some "Maths", some "Ma", none, "Single"⟩])]) (by decide)
    ("Monday", [none, none,
      some ⟨"Ma", some "JD", some "Maths", some "Ma", none, "Single"⟩]) (by decide)

/-! ## C3 — current schema wins only while its subject display is non-empty -/

/-- A cell write at another coordinate does not change this coordinate. -/
theorem gridCell_setCell_other (g g' : Grid) (cls day cls0 day0 : String)
    (i : Int) (i0 : Nat) (c : Option CellData) (hi : 0 ≤ i)
    (h : gridSetCell g cls day i c = some g')
    (hne : ¬(cls0 = cls ∧ day0 = day ∧ i0 = i.toNat)) :
    gridCell g' cls0 day0 i0 = gridCell g cls0 day0 i0 := by
  unfold gridSetCell at h
  rcases hdd : dictGet cls g with _ | dd
  · rw [hdd] at h; simp at h
  rw [hdd] at h
  simp only [Option.some_bind] at h
  rcases hl : dictGet day dd with _ | l
  · rw [hl] at h; simp at h
  rw [hl] at h
  simp only [Option.some_bind] at h
  rcases hs : pySetList l i c with _ | l'
  · rw [hs] at h; simp at h
  rw [hs] at h
  simp only [Option.map_some'] at h
  cases h
  obtain ⟨hlt, rfl⟩ := pySetList_nonneg l i c l' hi hs
  unfold gridCell
  by_cases hc : cls0 = cls
  · subst hc
    rw [dictGet_insert_self, hdd]
    simp only [Option.some_bind]
    by_cases hd : day0 = day
    · subst hd
      rw [dictGet_insert_self, hl]
      simp only [Option.some_bind]
      have hii : i0 ≠ i.toNat := fun he => hne ⟨rfl, rfl, he⟩
      exact List.get?_set_ne c l (Ne.symm hii)
    · rw [dictGet_insert_other _ _ _ _ (fun he => hd he.symm)]
  · rw [dictGet_insert_other _ _ _ _ (fun he => hc he.symm)]

/-- The legacy pass over one class never changes a cell whose subject string
is already non-empty. -/
theorem runLegacyEntries_preserve (days : List String) (ppd : Nat) (cls : String)
    (sc lt : List (String × String)) :
    ∀ (lst : List LegacyEntry) (g : Grid) (cls0 day0 : String) (i0 : Nat),
      cellSubjectFalsy ((gridCell g cls0 day0 i0).getD none) = false →
      gridCell (runLegacyEntries days ppd cls sc lt lst g) cls0 day0 i0
        = gridCell g cls0 day0 i0 := by
  intro lst
  induction lst with
  | nil => intro g cls0 day0 i0 _; rfl
  | cons e rest ih =>
      intro g cls0 day0 i0 h
      unfold runLegacyEntries
      by_cases hc : legacyDayName e.DAY_OF_WEEK ∉ days ∨
          (ppd : Int) ≤ e.PERIOD_NUMBER - 1 ∨ e.PERIOD_NUMBER - 1 < 0
      · rw [if_pos hc]
        exact ih g cls0 day0 i0 h
      · rw [if_neg hc]
        have hnn : (0 : Int) ≤ e.PERIOD_NUMBER - 1 := by
          by_contra hlt
          exact hc (Or.inr (Or.inr (by omega)))
        by_cases hf : cellSubjectFalsy
            ((gridCell g cls (legacyDayName e.DAY_OF_WEEK)
              (e.PERIOD_NUMBER - 1).toNat).getD none) = true
        · rw [if_pos hf]
          rcases hs : gridSetCell g cls (legacyDayName e.DAY_OF_WEEK) (e.PERIOD_NUMBER - 1)
              (some (legacyCell sc lt e)) with _ | g'
          · exact ih g cls0 day0 i0 h
          · have hne : ¬(cls0 = cls ∧ day0 = legacyDayName e.DAY_OF_WEEK ∧
                i0 = (e.PERIOD_NUMBER - 1).toNat) := by
              rintro ⟨rfl, rfl, rfl⟩
              rw [h] at hf
              cases hf
            have hpres := gridCell_setCell_other g g' cls (legacyDayName e.DAY_OF_WEEK)
              cls0 day0 (e.PERIOD_NUMBER - 1) i0 (some (legacyCell sc lt e)) hnn hs hne
            rw [ih g' cls0 day0 i0 (by rw [hpres]; exact h), hpres]
        · rw [if_neg hf]
          exact ih g cls0 day0 i0 h

/-- The whole legacy pass never changes a cell whose subject string is
already non-empty. -/
theorem runLegacyPass_preserve (db : Db) (days : List String) (ppd : Nat)
    (sc : List (String × String)) :
    ∀ (cs : List String) (g : Grid) (cls0 day0 : String) (i0 : Nat),
      cellSubjectFalsy ((gridCell g cls0 day0 i0).getD none) = false →
      gridCell (runLegacyPass db days ppd sc cs g) cls0 day0 i0
        = gridCell g cls0 day0 i0 := by
  intro cs
  induction cs with
  | nil => intro g cls0 day0 i0 _; rfl
  | cons cls rest ih =>
      intro g cls0 day0 i0 h
      unfold runLegacyPass
      have h1 := runLegacyEntries_preserve days ppd cls sc (lessonTypesFor db cls)
        (legacyEntries db cls) g cls0 day0 i0 h
      rw [ih _ cls0 day0 i0 (by rw [h1]; exact h), h1]

/-- C3 counterexample: cell `(CSE, Monday, 0)` is populated in both schemas
with different subjects (`X` in the current schema, `EN` in the legacy one);
because subject `X` has no `SUBJECTS` row its display abbreviation is empty,
so the legacy pass overwrites the cell — the loader output is the
legacy-schema value, not the current-schema one, even though the cell was
not empty (it carried teacher `JD`). -/
theorem C3_counterexample :
    gridCell (afterCurrentPass dbBothSchemas ["CSE"] ["Monday"] 1) "CSE" "Monday" 0
      = some (some ⟨"", some "JD", none, none, none, "Single"⟩) ∧
    gridCell (load_timetable_data dbBothSchemas ["CSE"] ["Monday"] 1) "CSE" "Monday" 0
      = some (some ⟨"EN", some "TR", some "English", some "EN", none, "Single"⟩) :=
  ⟨by decide, by decide⟩

/-- C3 (amended): the legacy pass writes a cell only while the cell's
*subject display string* is still empty after the current-schema pass (not
"only if the cell is empty"): any cell whose resolved subject abbreviation is
non-empty after the current pass is returned unchanged by the loader, so
current-schema data wins exactly when its subject display is non-empty. -/
theorem C3_theorem (db : Db) (class_names days : List String) (ppd : Nat)
    (cls day : String) (i : Nat)
    (h : cellSubjectFalsy
      ((gridCell (afterCurrentPass db class_names days ppd) cls day i).getD none) = false) :
    gridCell (load_timetable_data db class_names days ppd) cls day i
      = gridCell (afterCurrentPass db class_names days ppd) cls day i := by
  unfold load_timetable_data
  exact runLegacyPass_preserve db days ppd _ class_names _ cls day i h

/-- C3 witness: with a current-schema subject whose display abbreviation is
non-empty, the loader keeps the current-schema cell despite a legacy row for
the same coordinate. -/
theorem C3_witness :
    gridCell (load_timetable_data dbBothSchemasNamed ["CSE"] ["Monday"] 1) "CSE" "Monday" 0
      = gridCell (afterCurrentPass dbBothSchemasNamed ["CSE"] ["Monday"] 1) "CSE" "Monday" 0 :=
  C3_theorem dbBothSchemasNamed ["CSE"] ["Monday"] 1 "CSE" "Monday" 0 (by decide)

/-! ## C9 — span projection invariants -/

/-- Spans emitted from position `p` onwards start at or after `p`. -/
theorem load_data_spans_go_ge (n : Nat) :
    ∀ (cells : List (Option CellData)) (p : Nat) (processed : List Nat)
      (q L : Nat), (q, L) ∈ load_data_spans_go n p cells processed → p ≤ q := by
  intro cells
  induction cells with
  | nil => intro p pr q L h; simp [load_data_spans_go] at h
  | cons c rest ih =>
      intro p pr q L h
      cases c with
      | none =>
          rw [load_data_spans_go] at h
          exact Nat.le_of_succ_le (ih (p + 1) pr q L h)
      | some cell =>
          rw [load_data_spans_go] at h
          by_cases hg : p < n ∧ p ∉ pr
          · rw [if_pos hg] at h
            rcases List.mem_cons.mp h with he | hm
            · have : q = p := congrArg Prod.fst he
              omega
            · exact Nat.le_of_succ_le (ih (p + 1) _ q L hm)
          · rw [if_neg hg] at h
            exact Nat.le_of_succ_le (ih (p + 1) pr q L h)

/-- An emitted span never starts at an already-consumed period. -/
theorem load_data_spans_go_notmem (n : Nat) :
    ∀ (cells : List (Option CellData)) (p : Nat) (processed : List Nat)
      (q L : Nat), (q, L) ∈ load_data_spans_go n p cells processed →
      q ∉ processed := by
  intro cells
  induction cells with
  | nil => intro p pr q L h; simp [load_data_spans_go] at h
  | cons c rest ih =>
      intro p pr q L h
      cases c with
      | none =>
          rw [load_data_spans_go] at h
          exact ih (p + 1) pr q L h
      | some cell =>
          rw [load_data_spans_go] at h
          by_cases hg : p < n ∧ p ∉ pr
          · rw [if_pos hg] at h
            rcases List.mem_cons.mp h with he | hm
            · have : q = p := congrArg Prod.fst he
              rw [this]
              exact hg.2
            · intro hq
              exact ih (p + 1) _ q L hm
                (List.mem_append_right _ (List.mem_cons_of_mem _ hq))
          · rw [if_neg hg] at h
            exact ih (p + 1) pr q L h

/-- Consecutive spans do not overlap: each span ends at or before the next
span starts. -/
theorem load_data_spans_go_pairwise (n : Nat) :
    ∀ (cells : List (Option CellData)) (p : Nat) (processed : List Nat),
      List.Pairwise (fun a b : Nat × Nat => a.1 + a.2 ≤ b.1)
        (load_data_spans_go n p cells processed) := by
  intro cells
  induction cells with
  | nil => intro p pr; rw [load_data_spans_go]; exact List.Pairwise.nil
  | cons c rest ih =>
      intro p pr
      cases c with
      | none => rw [load_data_spans_go]; exact ih (p + 1) pr
      | some cell =>
          rw [load_data_spans_go]
          by_cases hg : p < n ∧ p ∉ pr
          · rw [if_pos hg]
            refine List.Pairwise.cons ?_ (ih (p + 1) _)
            intro b hb
            have hge : p + 1 ≤ b.1 := load_data_spans_go_ge n rest (p + 1) _ b.1 b.2 hb
            have hnm : b.1 ∉ (if spanRule n p cell.lesson_type = 2 then [p + 1]
                else if spanRule n p cell.lesson_type = 3 then [p + 1, p + 2]
                else []) ++ p :: pr :=
              load_data_spans_go_notmem n rest (p + 1) _ b.1 b.2 hb
            show p + spanRule n p cell.lesson_type ≤ b.1
            unfold spanRule at hnm ⊢
            by_cases h2 : cell.lesson_type = "Double" ∧ p < n - 1
            · rw [if_pos h2] at hnm ⊢
              simp at hnm
              omega
            · rw [if_neg h2] at hnm ⊢
              by_cases h3 : cell.lesson_type = "Triple" ∧ p < n - 2
              · rw [if_pos h3] at hnm ⊢
                simp at hnm
                omega
              · rw [if_neg h3] at hnm ⊢
                omega
          · rw [if_neg hg]
            exact ih (p + 1) pr

/-- Every emitted span starts inside the grid at a non-empty cell, with the
length the degrade rule prescribes. -/
theorem load_data_spans_go_rule (n : Nat) :
    ∀ (cells : List (Option CellData)) (p : Nat) (processed : List Nat)
      (q L : Nat), (q, L) ∈ load_data_spans_go n p cells processed →
      q < n ∧ ∃ cell : CellData, cells.get? (q - p) = some (some cell) ∧
        L = spanRule n q cell.lesson_type := by
  intro cells
  induction cells with
  | nil => intro p pr q L h; simp [load_data_spans_go] at h
  | cons c rest ih =>
      intro p pr q L h
      cases c with
      | none =>
          rw [load_data_spans_go] at h
          have hge := load_data_spans_go_ge n rest (p + 1) pr q L h
          obtain ⟨hq, cell, hc, hL⟩ := ih (p + 1) pr q L h
          refine ⟨hq, cell, ?_, hL⟩
          rw [show q - p = (q - (p + 1)) + 1 by omega, List.get?_cons_succ]
          exact hc
      | some cell =>
          rw [load_data_spans_go] at h
          by_cases hg : p < n ∧ p ∉ pr
          · rw [if_pos hg] at h
            rcases List.mem_cons.mp h with he | hm
            · have hq : q = p := congrArg Prod.fst he
              have hL : L = spanRule n p cell.lesson_type := congrArg Prod.snd he
              subst hq
              exact ⟨hg.1, cell, by simp, hL⟩
            · have hge := load_data_spans_go_ge n rest (p + 1) _ q L hm
              obtain ⟨hq, cell', hc, hL⟩ := ih (p + 1) _ q L hm
              refine ⟨hq, cell', ?_, hL⟩
              rw [show q - p = (q - (p + 1)) + 1 by omega, List.get?_cons_succ]
              exact hc
          · rw [if_neg hg] at h
            have hge := load_data_spans_go_ge n rest (p + 1) pr q L h
            obtain ⟨hq, cell', hc, hL⟩ := ih (p + 1) pr q L h
            refine ⟨hq, cell', ?_, hL⟩
            rw [show q - p = (q - (p + 1)) + 1 by omega, List.get?_cons_succ]
            exact hc

/-- Disjoint consecutive spans give at most one claimant per period. -/
theorem countP_le_one_of_pairwise (l : List (Nat × Nat)) (k : Nat)
    (h : List.Pairwise (fun a b : Nat × Nat => a.1 + a.2 ≤ b.1) l) :
    l.countP (fun s => decide (s.1 ≤ k ∧ k < s.1 + s.2)) ≤ 1 := by
  induction l with
  | nil => simp
  | cons a l ih =>
      rw [List.countP_cons]
      rcases List.pairwise_cons.mp h with ⟨ha, hl⟩
      by_cases hak : a.1 ≤ k ∧ k < a.1 + a.2
      · have hz : l.countP (fun s => decide (s.1 ≤ k ∧ k < s.1 + s.2)) = 0 := by
          rw [List.countP_eq_zero]
          intro b hb
          have hab := ha b hb
          simp only [decide_eq_true_eq]
          omega
        have hd : (decide (a.1 ≤ k ∧ k < a.1 + a.2)) = true := decide_eq_true hak
        rw [hz, hd]
        simp
      · have : (decide (a.1 ≤ k ∧ k < a.1 + a.2)) = false := by
          simp only [decide_eq_false_iff_not]
          exact hak
        rw [this]
        simpa using ih hl

/-- C9: the span projection of one `(class, day)` row — spans are pairwise
non-overlapping (so every period index is claimed by at most one span), and
every span starts inside the grid at a non-empty cell with the length given
by the source's degrade rule (`Double`/`Triple` consume the following 1/2
periods when they fit, else length 1). -/
theorem C9_theorem (n : Nat) (row : List (Option CellData)) :
    List.Pairwise (fun a b : Nat × Nat => a.1 + a.2 ≤ b.1) (load_data_spans n row) ∧
    (∀ k : Nat, (load_data_spans n row).countP
        (fun s => decide (s.1 ≤ k ∧ k < s.1 + s.2)) ≤ 1) ∧
    (∀ q L : Nat, (q, L) ∈ load_data_spans n row →
      q < n ∧ ∃ cell : CellData, row.get? q = some (some cell) ∧
        L = spanRule n q cell.lesson_type) := by
  refine ⟨load_data_spans_go_pairwise n row 0 [], ?_, ?_⟩
  · intro k
    exact countP_le_one_of_pairwise _ k (load_data_spans_go_pairwise n row 0 [])
  · intro q L h
    have := load_data_spans_go_rule n row 0 [] q L h
    simpa using this

/-- C9 witness: the spans of `sampleRow` at a concrete period. -/
theorem C9_witness :
    (1 < 6 ∧ ∃ cell : CellData, sampleRow.get? 1 = some (some cell) ∧
      2 = spanRule 6 1 cell.lesson_type) ∧
    (load_data_spans 6 sampleRow).countP
      (fun s => decide (s.1 ≤ 2 ∧ 2 < s.1 + s.2)) ≤ 1 := by
  have h := C9_theorem 6 sampleRow
  exact ⟨h.2.2 1 2 (by decide), h.2.1 2⟩
